import Mathlib

/-!
# TRUIDA biometric checkpoint system — shallow embedding

A shallow embedding of the TRUIDA passenger-identity workflow
(`src/lib/biometric-utils.ts`, `src/lib/data-store.ts`,
`src/components/CheckpointStation.tsx`, `src/components/EnrollmentStation.tsx`)
and proofs of the specification claims about it.

Modelling conventions:
* JavaScript numbers used as timestamps (`Date.now()`, parsed departure
  times) are modelled as `ℤ` (epoch milliseconds).  A `departureTime`
  string that is empty or unparseable (`new Date(s)` is an Invalid Date,
  every comparison with it is false) is modelled as `none : Option ℤ`.
* Embedding vectors (`number[]`) are modelled as `List ℚ`.
* A cosine-similarity value `dot / (sqrt n1 * sqrt n2)` is represented
  exactly by the pair `(dot, n1 * n2) : ℚ × ℚ`, read as the real number
  `dot / Real.sqrt (n1 * n2)`.  The pair with second component `0`
  represents the JavaScript `NaN` produced by `0 / 0` (a zero-norm
  vector forces the dot product to be `0` as well).  `simVal` is the
  interpretation into `Option ℝ` (`none` = NaN) and `simGt` is the
  NaN-aware strict comparison used by the engine (any comparison with
  NaN is false in JavaScript).
* `crypto.randomUUID()` for log-entry ids is modelled by a counter
  (`nextLogId`) carried in the store state; the `notes` string
  `"Similarity: <percent>%"` is modelled by the raw similarity score it
  is formatted from.
* Optional function arguments (`fingerprintHash?`) are `Option String`;
  the JavaScript falsiness test `fingerprintHash ? _ : true` is modelled
  by matching on the option.
-/

/-- One of the three clearance gates (`'security' | 'immigration' | 'boarding'`). -/
inductive Checkpoint : Type
  | security
  | immigration
  | boarding
deriving DecidableEq, Repr

/-- The `checkpoints` progress object of a passenger record. -/
structure Checkpoints : Type where
  security : Bool
  immigration : Bool
  boarding : Bool
deriving DecidableEq, Repr

/-- Dynamic field access `checkpoints[checkpoint]`. -/
def Checkpoints.get (c : Checkpoints) : Checkpoint → Bool
  | .security => c.security
  | .immigration => c.immigration
  | .boarding => c.boarding

/-- Dynamic field assignment `checkpoints[checkpoint] = status`. -/
def Checkpoints.set (c : Checkpoints) : Checkpoint → Bool → Checkpoints
  | .security, b => { c with security := b }
  | .immigration, b => { c with immigration := b }
  | .boarding, b => { c with boarding := b }

/-- `BiometricData` from `biometric-utils.ts`. -/
structure BiometricData : Type where
  faceHash : String
  fingerprintHash : String
  faceEmbedding : Option (List ℚ)
  timestamp : ℤ
deriving DecidableEq

/-- `PassengerData` from `biometric-utils.ts`.  `departureTime` is the
parsed value of the stored string: `none` when empty/unparseable. -/
structure PassengerData : Type where
  id : String
  passportNumber : String
  firstName : String
  lastName : String
  flightNumber : String
  gate : String
  departureTime : Option ℤ
  biometrics : BiometricData
  enrollmentTime : ℤ
  checkpoints : Checkpoints
  guardianId : Option String
deriving DecidableEq

/-- `result: 'granted' | 'denied'` of a `StaffLogEntry`. -/
inductive AccessResult : Type
  | granted
  | denied
deriving DecidableEq, Repr

/-- `StaffLogEntry` from `data-store.ts`.  `notes` carries the raw
similarity score that the source formats as `"Similarity: <p>%"`. -/
structure StaffLogEntry : Type where
  id : String
  passengerId : String
  checkpoint : Checkpoint
  timestamp : ℤ
  result : AccessResult
  staffId : String
  notes : Option (ℚ × ℚ)
deriving DecidableEq

/-- The `localStorage`-backed state: the passenger list under
`truida_passengers`, the log list under `truida_staff_logs`, and the
counter modelling `crypto.randomUUID()` freshness for log ids. -/
structure TruidaStore : Type where
  passengers : List PassengerData
  logs : List StaffLogEntry
  nextLogId : ℕ
deriving DecidableEq

/-! ## SimilarityScorer (`calculateFaceSimilarity`) -/

/-- The dot product loop of `calculateFaceSimilarity` (run after the
length check, so only the common length matters). -/
def dotQ (a b : List ℚ) : ℚ := (List.zipWith (· * ·) a b).sum

/-- The accumulated `norm` of one vector: `Σ v[i] * v[i]`. -/
def normSq (a : List ℚ) : ℚ := (a.map fun x => x * x).sum

/-- `calculateFaceSimilarity` from `biometric-utils.ts`, representing the
returned value `dot / (sqrt n1 * sqrt n2)` exactly as the pair
`(dot, n1 * n2)` (see `simVal`).  A length mismatch returns `0`,
i.e. the pair `(0, 1)`.  The source has no zero-norm guard: when a
norm is `0` the pair has second component `0` (the JS `NaN`). -/
def calculateFaceSimilarity (a b : List ℚ) : ℚ × ℚ :=
  if a.length ≠ b.length then (0, 1)
  else (dotQ a b, normSq a * normSq b)

/-- Interpretation of a similarity pair as the real number it denotes:
`none` is the JavaScript `NaN` from `0 / 0`. -/
noncomputable def simVal (s : ℚ × ℚ) : Option ℝ :=
  if s.2 = 0 then none else some ((s.1 : ℝ) / Real.sqrt (s.2 : ℝ))

/-- The JavaScript float comparison `sim1 > sim2` on two similarity
pairs, decided by sign analysis and cross-multiplied squares (any
comparison with NaN is false). -/
def simGt (s t : ℚ × ℚ) : Bool :=
  if s.2 = 0 ∨ t.2 = 0 then false
  else if 0 < s.1 then
    if 0 < t.1 then decide (t.1 ^ 2 * s.2 < s.1 ^ 2 * t.2) else true
  else if 0 ≤ t.1 then false
  else if s.1 = 0 then true
  else decide (s.1 ^ 2 * t.2 < t.1 ^ 2 * s.2)

/-- `isFlightValid` from `biometric-utils.ts`: `new Date(departureTime) > now`;
an Invalid Date compares false. -/
def isFlightValid (departureTime : Option ℤ) (now : ℤ) : Bool :=
  match departureTime with
  | some d => decide (now < d)
  | none => false

/-- Result record of `verifyBiometricMatch`. -/
structure MatchResult : Type where
  faceMatch : Bool
  fingerprintMatch : Bool
  similarity : ℚ × ℚ
deriving DecidableEq

/-- `verifyBiometricMatch` from `biometric-utils.ts`.  The similarity is
`0` (the pair `(0, 1)`) unless both a current and a stored embedding
are present. -/
def verifyBiometricMatch (stored : BiometricData) (currentFaceHash : String)
    (currentFingerprintHash : Option String) (currentFaceEmbedding : Option (List ℚ)) :
    MatchResult where
  faceMatch := stored.faceHash == currentFaceHash
  fingerprintMatch :=
    match currentFingerprintHash with
    | some fh => stored.fingerprintHash == fh
    | none => true
  similarity :=
    match currentFaceEmbedding, stored.faceEmbedding with
    | some cur, some st => calculateFaceSimilarity st cur
    | _, _ => (0, 1)

/-! ## PassengerRecordStore (`data-store.ts`) -/

/-- `savePassengerData`: replace the first record with the same `id`
(`findIndex`), or push when absent (`List.findIdx` returns the length
when no element matches, exactly the `findIndex >= 0` test). -/
def savePassengerData (p : PassengerData) (ps : List PassengerData) : List PassengerData :=
  let i := ps.findIdx fun q => q.id == p.id
  if i < ps.length then ps.set i p else ps ++ [p]

/-- `updateCheckpointStatus`: find the first record with the given id,
set the checkpoint flag, and save; `false` when no record matches. -/
def updateCheckpointStatus (passengerId : String) (checkpoint : Checkpoint) (status : Bool)
    (ps : List PassengerData) : List PassengerData × Bool :=
  match ps.find? (fun p => p.id == passengerId) with
  | none => (ps, false)
  | some p =>
      (savePassengerData { p with checkpoints := p.checkpoints.set checkpoint status } ps, true)

/-- `deletePassengerData`: keep every record whose id differs and report
`true` (the source returns `false` only when the storage write throws,
which the in-memory model cannot). -/
def deletePassengerData (passengerId : String) (ps : List PassengerData) :
    List PassengerData × Bool :=
  (ps.filter fun p => !(p.id == passengerId), true)

/-- `findPassengersByBiometrics`: exact face-hash filter, additionally
filtered by fingerprint hash when one is supplied. -/
def findPassengersByBiometrics (faceHash : String) (fingerprintHash : Option String)
    (ps : List PassengerData) : List PassengerData :=
  ps.filter fun p =>
    (p.biometrics.faceHash == faceHash) &&
    (match fingerprintHash with
     | some fh => p.biometrics.fingerprintHash == fh
     | none => true)

/-- `cleanupExpiredPassengers`: keep records with `departure > now`,
return the kept list together with the removed count. -/
def cleanupExpiredPassengers (now : ℤ) (ps : List PassengerData) :
    List PassengerData × ℕ :=
  let active := ps.filter fun p => isFlightValid p.departureTime now
  (active, ps.length - active.length)

/-- Fresh log-entry id (models `crypto.randomUUID()`). -/
def mkLogId (n : ℕ) : String := "LOG-" ++ toString n

/-- `logCheckpointAccess`: append one entry with a fresh id. -/
def logCheckpointAccess (passengerId : String) (checkpoint : Checkpoint) (timestamp : ℤ)
    (result : AccessResult) (staffId : String) (notes : Option (ℚ × ℚ))
    (st : TruidaStore) : TruidaStore :=
  { st with
    logs := st.logs ++
      [{ id := mkLogId st.nextLogId, passengerId := passengerId, checkpoint := checkpoint,
         timestamp := timestamp, result := result, staffId := staffId, notes := notes }]
    nextLogId := st.nextLogId + 1 }

/-! ## CheckpointEngine (`CheckpointStation.tsx`, `processVerification`) -/

/-- The closed set of outcomes of `processVerification`.  The source
distinguishes them by the `message` string of its result object:
`NO_MATCH` = "No matching passenger found…", `FLIGHT_DEPARTED` =
"Flight has already departed…", `PREREQUISITE_MISSING` = "Must clear …
checkpoint(s) first.", `ALREADY_CLEARED` = "Already cleared this
checkpoint…", `GRANTED` = "Access granted…". -/
inductive Outcome : Type
  | NO_MATCH
  | FLIGHT_DEPARTED
  | PREREQUISITE_MISSING
  | ALREADY_CLEARED
  | GRANTED
deriving DecidableEq, Repr

/-- The `success` flag the source attaches to each outcome. -/
def Outcome.success : Outcome → Bool
  | .ALREADY_CLEARED => true
  | .GRANTED => true
  | _ => false

/-- The result object of `processVerification`: outcome, the attached
passenger (absent for `NO_MATCH`) and the recorded similarity. -/
structure VerificationResult : Type where
  outcome : Outcome
  passenger : Option PassengerData
  similarity : Option (ℚ × ℚ)
deriving DecidableEq

/-- One iteration of the best-match loop: a candidate without a stored
embedding is skipped; one with an embedding replaces the current best
exactly when its similarity is strictly greater. -/
def selectStep (faceHash : String) (fingerprintHash : Option String) (faceEmbedding : List ℚ)
    (acc : PassengerData × (ℚ × ℚ)) (candidate : PassengerData) : PassengerData × (ℚ × ℚ) :=
  match candidate.biometrics.faceEmbedding with
  | none => acc
  | some _ =>
      let v := verifyBiometricMatch candidate.biometrics faceHash fingerprintHash
        (some faceEmbedding)
      if simGt v.similarity acc.2 then (candidate, v.similarity) else acc

/-- The best-match selection of `processVerification`: start from
`bestMatch = candidates[0]`, `bestSimilarity = 0` and fold the loop
over all candidates (the first candidate included). -/
def selectBest (faceHash : String) (fingerprintHash : Option String) (faceEmbedding : List ℚ)
    (c0 : PassengerData) (rest : List PassengerData) : PassengerData × (ℚ × ℚ) :=
  (c0 :: rest).foldl (selectStep faceHash fingerprintHash faceEmbedding) (c0, (0, 1))

/-- `processVerification` from `CheckpointStation.tsx`: candidate lookup,
best-match selection, flight-validity check, the two prerequisite
checks, the already-cleared check, and finally the grant (which is the
only branch that writes the store and appends a log entry). -/
def processVerification (checkpoint : Checkpoint) (faceHash : String) (faceEmbedding : List ℚ)
    (fingerprintHash : Option String) (now : ℤ) (st : TruidaStore) :
    VerificationResult × TruidaStore :=
  match findPassengersByBiometrics faceHash fingerprintHash st.passengers with
  | [] => (⟨.NO_MATCH, none, none⟩, st)
  | c0 :: rest =>
      let best := selectBest faceHash fingerprintHash faceEmbedding c0 rest
      if isFlightValid best.1.departureTime now = false then
        (⟨.FLIGHT_DEPARTED, some best.1, some best.2⟩, st)
      else if checkpoint = .immigration ∧ best.1.checkpoints.security = false then
        (⟨.PREREQUISITE_MISSING, some best.1, some best.2⟩, st)
      else if checkpoint = .boarding ∧
          (best.1.checkpoints.security = false ∨ best.1.checkpoints.immigration = false) then
        (⟨.PREREQUISITE_MISSING, some best.1, some best.2⟩, st)
      else if best.1.checkpoints.get checkpoint = true then
        (⟨.ALREADY_CLEARED, some best.1, some best.2⟩, st)
      else
        let st1 : TruidaStore :=
          { st with passengers := (updateCheckpointStatus best.1.id checkpoint true st.passengers).1 }
        let st2 := logCheckpointAccess best.1.id checkpoint now .granted "SYSTEM"
          (some best.2) st1
        (⟨.GRANTED, some best.1, some best.2⟩, st2)

/-- One verification request (the injectable clock value included). -/
structure VerifyCall : Type where
  checkpoint : Checkpoint
  faceHash : String
  faceEmbedding : List ℚ
  fingerprintHash : Option String
  now : ℤ

/-- Run a sequence of verification requests against the store. -/
def runVerifications (calls : List VerifyCall) (st : TruidaStore) : TruidaStore :=
  calls.foldl
    (fun s c => (processVerification c.checkpoint c.faceHash c.faceEmbedding c.fingerprintHash
      c.now s).2) st

/-! ## EnrollmentService (`EnrollmentStation.tsx`) -/

/-- The enrollment form state (`formData`).  `departureTime` is the
parsed value of the `datetime-local` input, `none` when left empty or
unparseable. -/
structure EnrollmentForm : Type where
  firstName : String
  lastName : String
  passportNumber : String
  flightNumber : String
  gate : String
  departureTime : Option ℤ

/-- The gate on the info step: the Continue button is
`disabled={!firstName || !lastName || !passportNumber || !flightNumber}` —
`departureTime` and `gate` are not checked. -/
def infoStepComplete (f : EnrollmentForm) : Bool :=
  f.firstName != "" && f.lastName != "" && f.passportNumber != "" && f.flightNumber != ""

/-- `generatePassengerId` from `biometric-utils.ts`, with the generated
UUID injected. -/
def generatePassengerId (uuid : String) : String := "TRU-" ++ uuid

/-- `completeEnrollment` from `EnrollmentStation.tsx`: rejects only when
face or fingerprint data is missing; otherwise builds the record
(fresh id, `enrollmentTime = Date.now()`, all checkpoints false) and
persists it with `savePassengerData`.  It performs no identity-field
validation. -/
def completeEnrollment (form : EnrollmentForm) (faceData : Option (String × List ℚ))
    (fingerprintHash : Option String) (uuid : String) (now : ℤ)
    (ps : List PassengerData) : Option (PassengerData × List PassengerData) :=
  match faceData, fingerprintHash with
  | some fd, some fp =>
      let passenger : PassengerData :=
        { id := generatePassengerId uuid
          passportNumber := form.passportNumber
          firstName := form.firstName
          lastName := form.lastName
          flightNumber := form.flightNumber
          gate := form.gate
          departureTime := form.departureTime
          biometrics :=
            { faceHash := fd.1, fingerprintHash := fp, faceEmbedding := some fd.2,
              timestamp := now }
          enrollmentTime := now
          checkpoints := ⟨false, false, false⟩
          guardianId := none }
      some (passenger, savePassengerData passenger ps)
  | _, _ => none

/-- The enrollment flow as a whole: the info-step gate followed by
`completeEnrollment`. -/
def enroll (form : EnrollmentForm) (faceData : Option (String × List ℚ))
    (fingerprintHash : Option String) (uuid : String) (now : ℤ)
    (ps : List PassengerData) : Option (PassengerData × List PassengerData) :=
  if infoStepComplete form then completeEnrollment form faceData fingerprintHash uuid now ps
  else none

/-! ## Basic helper lemmas -/

/-- All-clear-pending progress object (the enrollment default). -/
def allFalse : Checkpoints := ⟨false, false, false⟩

@[simp] theorem security_ne_immigration : Checkpoint.security ≠ Checkpoint.immigration := by
  decide

@[simp] theorem security_ne_boarding : Checkpoint.security ≠ Checkpoint.boarding := by
  decide

@[simp] theorem immigration_ne_security : Checkpoint.immigration ≠ Checkpoint.security := by
  decide

@[simp] theorem immigration_ne_boarding : Checkpoint.immigration ≠ Checkpoint.boarding := by
  decide

@[simp] theorem boarding_ne_security : Checkpoint.boarding ≠ Checkpoint.security := by
  decide

@[simp] theorem boarding_ne_immigration : Checkpoint.boarding ≠ Checkpoint.immigration := by
  decide

theorem Checkpoints.get_set_self (c : Checkpoints) (cp : Checkpoint) (b : Bool) :
    (c.set cp b).get cp = b := by
  cases cp <;> rfl

theorem Checkpoints.get_set_ne (c : Checkpoints) (cp cp' : Checkpoint) (b : Bool)
    (h : cp' ≠ cp) : (c.set cp b).get cp' = c.get cp' := by
  cases cp <;> cases cp' <;> first | rfl | exact absurd rfl h

theorem Checkpoints.set_security (c : Checkpoints) (b : Bool) :
    (c.set .security b).immigration = c.immigration ∧ (c.set .security b).boarding = c.boarding :=
  ⟨rfl, rfl⟩

theorem Checkpoints.set_ne_self (c : Checkpoints) (cp : Checkpoint)
    (h : c.get cp = false) : c.set cp true ≠ c := by
  intro heq
  have h2 : (c.set cp true).get cp = true := Checkpoints.get_set_self c cp true
  rw [heq, h] at h2
  exact Bool.false_ne_true h2

/-- A similarity score never strictly exceeds itself, which is what makes
the best-match loop keep the first-seen candidate on ties. -/
theorem simGt_irrefl (s : ℚ × ℚ) : simGt s s = false := by
  unfold simGt
  rcases eq_or_ne s.2 0 with h2 | h2
  · simp [h2]
  · rcases lt_trichotomy 0 s.1 with h1 | h1 | h1
    · simp [h2, h1]
    · simp [h2, ← h1]
    · simp [h2, not_lt.2 h1.le, not_le.2 h1, h1.ne, lt_irrefl]

/-- One loop iteration either keeps the accumulator or installs the
candidate together with its similarity. -/
theorem selectStep_cases (fh : String) (fp : Option String) (e : List ℚ)
    (acc : PassengerData × (ℚ × ℚ)) (c : PassengerData) :
    selectStep fh fp e acc c = acc ∨
      selectStep fh fp e acc c = (c, (verifyBiometricMatch c.biometrics fh fp (some e)).similarity) := by
  unfold selectStep
  cases hemb : c.biometrics.faceEmbedding with
  | none => exact Or.inl rfl
  | some emb =>
    dsimp only
    by_cases hgt : simGt (verifyBiometricMatch c.biometrics fh fp (some e)).similarity acc.2 = true
    · rw [if_pos hgt]
      exact Or.inr rfl
    · rw [if_neg hgt]
      exact Or.inl rfl

/-- The best-match fold always returns one of the candidates it was
started from (or the start accumulator). -/
theorem foldl_selectStep_fst_mem (fh : String) (fp : Option String) (e : List ℚ)
    (l : List PassengerData) (acc : PassengerData × (ℚ × ℚ)) :
    (l.foldl (selectStep fh fp e) acc).1 = acc.1 ∨ (l.foldl (selectStep fh fp e) acc).1 ∈ l := by
  induction l generalizing acc with
  | nil => exact Or.inl rfl
  | cons c cs ih =>
    rw [List.foldl_cons]
    rcases selectStep_cases fh fp e acc c with hs | hs
    · rw [hs]
      rcases ih acc with h | h
      · exact Or.inl h
      · exact Or.inr (List.mem_cons_of_mem c h)
    · rw [hs]
      rcases ih (c, (verifyBiometricMatch c.biometrics fh fp (some e)).similarity) with h | h
      · exact Or.inr (by rw [h]; exact List.mem_cons_self c cs)
      · exact Or.inr (List.mem_cons_of_mem c h)

/-- The selected best match is one of the candidates. -/
theorem selectBest_fst_mem (fh : String) (fp : Option String) (e : List ℚ)
    (c0 : PassengerData) (rest : List PassengerData) :
    (selectBest fh fp e c0 rest).1 ∈ c0 :: rest := by
  rcases foldl_selectStep_fst_mem fh fp e (c0 :: rest) (c0, (0, 1)) with h | h
  · rw [selectBest, h]
    exact List.mem_cons_self c0 rest
  · exact h

/-- `find?` over a decomposed list: the head of the matching tail is found
when everything before it fails the predicate. -/
theorem find?_append_cons {α : Type} (p : α → Bool) (l1 l2 : List α) (f : α)
    (h1 : ∀ q ∈ l1, p q = false) (hf : p f = true) :
    (l1 ++ f :: l2).find? p = some f := by
  induction l1 with
  | nil => simp [List.find?_cons, hf]
  | cons a as ih =>
    have ha : p a = false := h1 a (List.mem_cons_self a as)
    simp only [List.cons_append, List.find?_cons, ha]
    exact ih fun q hq => h1 q (List.mem_cons_of_mem a hq)

/-- `findIdx` over a decomposed list. -/
theorem findIdx_append_cons {α : Type} (p : α → Bool) (l1 l2 : List α) (f : α)
    (h1 : ∀ q ∈ l1, p q = false) (hf : p f = true) :
    (l1 ++ f :: l2).findIdx p = l1.length := by
  induction l1 with
  | nil => simp [List.findIdx_cons, hf]
  | cons a as ih =>
    have ha : p a = false := h1 a (List.mem_cons_self a as)
    simp only [List.cons_append, List.findIdx_cons, ha, cond_false, List.length_cons]
    rw [ih fun q hq => h1 q (List.mem_cons_of_mem a hq)]

/-- `savePassengerData` on a store decomposed at the first record with the
saved id replaces exactly that record. -/
theorem savePassengerData_append_cons (p' f : PassengerData) (l1 l2 : List PassengerData)
    (h1 : ∀ q ∈ l1, q.id ≠ p'.id) (hf : f.id = p'.id) :
    savePassengerData p' (l1 ++ f :: l2) = l1 ++ p' :: l2 := by
  have hidx : (l1 ++ f :: l2).findIdx (fun q => q.id == p'.id) = l1.length := by
    refine findIdx_append_cons _ _ _ _ (fun q hq => ?_) (by simp [hf])
    simp [h1 q hq]
  have hlen : l1.length < (l1 ++ f :: l2).length := by
    simp [List.length_append]
  rw [savePassengerData]
  simp only [hidx, if_pos hlen]
  rw [List.set_append_right _ _ (le_refl l1.length)]
  simp

/-- Decompose a store with pairwise-distinct ids at a member record. -/
theorem exists_decomp_of_nodup (p : PassengerData) (ps : List PassengerData)
    (hnd : (ps.map PassengerData.id).Nodup) (hp : p ∈ ps) :
    ∃ l1 l2, ps = l1 ++ p :: l2 ∧ (∀ q ∈ l1, q.id ≠ p.id) ∧ ∀ q ∈ l2, q.id ≠ p.id := by
  obtain ⟨l1, l2, rfl⟩ := List.append_of_mem hp
  rw [List.map_append, List.map_cons] at hnd
  rcases List.nodup_append.1 hnd with ⟨_, hnd2, hdisj⟩
  refine ⟨l1, l2, rfl, ?_, ?_⟩
  · intro q hq heq
    refine hdisj (List.mem_map_of_mem PassengerData.id hq) ?_
    rw [heq]
    exact List.mem_cons_self _ _
  · intro q hq heq
    rw [List.nodup_cons] at hnd2
    exact hnd2.1 (heq ▸ List.mem_map_of_mem PassengerData.id hq)

/-! ## Branch equations of `processVerification` -/

theorem processVerification_no_match (cp : Checkpoint) (fh : String) (e : List ℚ)
    (fp : Option String) (now : ℤ) (st : TruidaStore)
    (hc : findPassengersByBiometrics fh fp st.passengers = []) :
    processVerification cp fh e fp now st = (⟨.NO_MATCH, none, none⟩, st) := by
  unfold processVerification
  rw [hc]

theorem processVerification_flight_departed (cp : Checkpoint) (fh : String) (e : List ℚ)
    (fp : Option String) (now : ℤ) (st : TruidaStore) (c0 : PassengerData)
    (rest : List PassengerData) (b : PassengerData × (ℚ × ℚ))
    (hc : findPassengersByBiometrics fh fp st.passengers = c0 :: rest)
    (hb : selectBest fh fp e c0 rest = b)
    (hv : isFlightValid b.1.departureTime now = false) :
    processVerification cp fh e fp now st = (⟨.FLIGHT_DEPARTED, some b.1, some b.2⟩, st) := by
  unfold processVerification
  rw [hc]
  dsimp only
  rw [hb, if_pos hv]

theorem processVerification_prereq_immigration (cp : Checkpoint) (fh : String) (e : List ℚ)
    (fp : Option String) (now : ℤ) (st : TruidaStore) (c0 : PassengerData)
    (rest : List PassengerData) (b : PassengerData × (ℚ × ℚ))
    (hc : findPassengersByBiometrics fh fp st.passengers = c0 :: rest)
    (hb : selectBest fh fp e c0 rest = b)
    (hv : isFlightValid b.1.departureTime now = true)
    (hp : cp = .immigration ∧ b.1.checkpoints.security = false) :
    processVerification cp fh e fp now st = (⟨.PREREQUISITE_MISSING, some b.1, some b.2⟩, st) := by
  unfold processVerification
  rw [hc]
  dsimp only
  rw [hb, if_neg (by simp [hv]), if_pos hp]

theorem processVerification_prereq_boarding (cp : Checkpoint) (fh : String) (e : List ℚ)
    (fp : Option String) (now : ℤ) (st : TruidaStore) (c0 : PassengerData)
    (rest : List PassengerData) (b : PassengerData × (ℚ × ℚ))
    (hc : findPassengersByBiometrics fh fp st.passengers = c0 :: rest)
    (hb : selectBest fh fp e c0 rest = b)
    (hv : isFlightValid b.1.departureTime now = true)
    (h1 : ¬(cp = .immigration ∧ b.1.checkpoints.security = false))
    (hp : cp = .boarding ∧
      (b.1.checkpoints.security = false ∨ b.1.checkpoints.immigration = false)) :
    processVerification cp fh e fp now st = (⟨.PREREQUISITE_MISSING, some b.1, some b.2⟩, st) := by
  unfold processVerification
  rw [hc]
  dsimp only
  rw [hb, if_neg (by simp [hv]), if_neg h1, if_pos hp]

theorem processVerification_already_cleared (cp : Checkpoint) (fh : String) (e : List ℚ)
    (fp : Option String) (now : ℤ) (st : TruidaStore) (c0 : PassengerData)
    (rest : List PassengerData) (b : PassengerData × (ℚ × ℚ))
    (hc : findPassengersByBiometrics fh fp st.passengers = c0 :: rest)
    (hb : selectBest fh fp e c0 rest = b)
    (hv : isFlightValid b.1.departureTime now = true)
    (h1 : ¬(cp = .immigration ∧ b.1.checkpoints.security = false))
    (h2 : ¬(cp = .boarding ∧
      (b.1.checkpoints.security = false ∨ b.1.checkpoints.immigration = false)))
    (hg : b.1.checkpoints.get cp = true) :
    processVerification cp fh e fp now st = (⟨.ALREADY_CLEARED, some b.1, some b.2⟩, st) := by
  unfold processVerification
  rw [hc]
  dsimp only
  rw [hb, if_neg (by simp [hv]), if_neg h1, if_neg h2, if_pos hg]

theorem processVerification_granted (cp : Checkpoint) (fh : String) (e : List ℚ)
    (fp : Option String) (now : ℤ) (st : TruidaStore) (c0 : PassengerData)
    (rest : List PassengerData) (b : PassengerData × (ℚ × ℚ))
    (hc : findPassengersByBiometrics fh fp st.passengers = c0 :: rest)
    (hb : selectBest fh fp e c0 rest = b)
    (hv : isFlightValid b.1.departureTime now = true)
    (h1 : ¬(cp = .immigration ∧ b.1.checkpoints.security = false))
    (h2 : ¬(cp = .boarding ∧
      (b.1.checkpoints.security = false ∨ b.1.checkpoints.immigration = false)))
    (hg : b.1.checkpoints.get cp = false) :
    processVerification cp fh e fp now st =
      (⟨.GRANTED, some b.1, some b.2⟩,
        { passengers := (updateCheckpointStatus b.1.id cp true st.passengers).1,
          logs := st.logs ++
            [{ id := mkLogId st.nextLogId, passengerId := b.1.id, checkpoint := cp,
               timestamp := now, result := .granted, staffId := "SYSTEM",
               notes := some b.2 }],
          nextLogId := st.nextLogId + 1 }) := by
  unfold processVerification
  rw [hc]
  dsimp only
  rw [hb, if_neg (by simp [hv]), if_neg h1, if_neg h2,
    if_neg (by simp [hg])]
  rfl

/-! ## Concrete fixtures for witnesses and counterexamples -/

/-- A baseline enrolled passenger: flight departs at time `1000`, no
checkpoint cleared, a one-dimensional stored embedding. -/
def basePassenger : PassengerData :=
  { id := "P1", passportNumber := "N111", firstName := "Ada", lastName := "Lovelace",
    flightNumber := "EK100", gate := "A1", departureTime := some 1000,
    biometrics := { faceHash := "face-1", fingerprintHash := "fp-1",
                    faceEmbedding := some [1], timestamp := 0 },
    enrollmentTime := 0, checkpoints := allFalse, guardianId := none }

/-- The same passenger with the flight already departed at time `10`. -/
def departedPassenger : PassengerData := { basePassenger with departureTime := some 5 }

/-! ## C1 — flight-validity check comes first -/

/-- C1: for every verify call with a non-empty candidate set, if the
selected best match's departure time is `≤ now` the outcome is
`FLIGHT_DEPARTED` (denied, record attached, similarity recorded) and the
store is untouched, regardless of the record's checkpoint progress and of
whether the requested checkpoint is already cleared: the flight-validity
check precedes the precedence and already-cleared checks. -/
theorem verify_flight_departed_precedence (cp : Checkpoint) (fh : String) (e : List ℚ)
    (fp : Option String) (now : ℤ) (st : TruidaStore) (c0 : PassengerData)
    (rest : List PassengerData) (d : ℤ)
    (hc : findPassengersByBiometrics fh fp st.passengers = c0 :: rest)
    (hd : (selectBest fh fp e c0 rest).1.departureTime = some d)
    (hle : d ≤ now) :
    processVerification cp fh e fp now st =
      (⟨.FLIGHT_DEPARTED, some (selectBest fh fp e c0 rest).1,
        some (selectBest fh fp e c0 rest).2⟩, st) ∧
    Outcome.success .FLIGHT_DEPARTED = false := by
  refine ⟨processVerification_flight_departed cp fh e fp now st c0 rest _ hc rfl ?_, rfl⟩
  rw [hd]
  simp only [isFlightValid, decide_eq_false_iff_not, not_lt]
  exact hle

/-- Witness for C1: a passenger whose flight departed at time `5`,
verified at time `10` with boarding already dependent on cleared
checkpoints — still `FLIGHT_DEPARTED`. -/
theorem verify_flight_departed_precedence_witness :
    processVerification .boarding "face-1" [1] none 10
        ⟨[{ departedPassenger with checkpoints := ⟨true, true, true⟩ }], [], 0⟩ =
      (⟨.FLIGHT_DEPARTED,
        some { departedPassenger with checkpoints := ⟨true, true, true⟩ }, some (1, 1)⟩,
       ⟨[{ departedPassenger with checkpoints := ⟨true, true, true⟩ }], [], 0⟩) ∧
    Outcome.success .FLIGHT_DEPARTED = false := by
  have h := verify_flight_departed_precedence .boarding "face-1" [1] none 10
    ⟨[{ departedPassenger with checkpoints := ⟨true, true, true⟩ }], [], 0⟩
    { departedPassenger with checkpoints := ⟨true, true, true⟩ } [] 5
    (by norm_num [findPassengersByBiometrics, departedPassenger, basePassenger])
    (by norm_num [selectBest, selectStep, verifyBiometricMatch, calculateFaceSimilarity,
      dotQ, normSq, simGt, departedPassenger, basePassenger])
    (by norm_num)
  refine ⟨?_, h.2⟩
  rw [h.1]
  norm_num [selectBest, selectStep, verifyBiometricMatch, calculateFaceSimilarity,
    dotQ, normSq, simGt, departedPassenger, basePassenger]

/-! ## C2 — which outcomes append a log entry -/

/-- Counterexample to C2: a `FLIGHT_DEPARTED` outcome (not `NO_MATCH`)
appends no log entry at all — denials are silently dropped by the
source, which only logs in the grant branch. -/
theorem verify_denial_not_logged_cex :
    (processVerification .security "face-1" [1] none 10 ⟨[departedPassenger], [], 0⟩).1.outcome
      = .FLIGHT_DEPARTED ∧
    (processVerification .security "face-1" [1] none 10 ⟨[departedPassenger], [], 0⟩).2.logs
      = [] := by
  norm_num [processVerification, findPassengersByBiometrics, selectBest, selectStep,
    verifyBiometricMatch, calculateFaceSimilarity, dotQ, normSq, simGt, isFlightValid,
    departedPassenger, basePassenger]

/-- C2 (amended): exactly one log entry (result `granted`, staff
`SYSTEM`, notes carrying the similarity) is appended when the outcome is
`GRANTED`; every other outcome — including the denials `FLIGHT_DEPARTED`
and `PREREQUISITE_MISSING` and the granted re-entry `ALREADY_CLEARED` —
appends nothing. -/
theorem verify_logs_exactly_on_grant (cp : Checkpoint) (fh : String) (e : List ℚ)
    (fp : Option String) (now : ℤ) (st : TruidaStore) :
    ((processVerification cp fh e fp now st).1.outcome = .GRANTED →
      ∃ p s, (processVerification cp fh e fp now st).1.passenger = some p ∧
        (processVerification cp fh e fp now st).1.similarity = some s ∧
        (processVerification cp fh e fp now st).2.logs = st.logs ++
          [{ id := mkLogId st.nextLogId, passengerId := p.id, checkpoint := cp,
             timestamp := now, result := .granted, staffId := "SYSTEM", notes := some s }]) ∧
    ((processVerification cp fh e fp now st).1.outcome ≠ .GRANTED →
      (processVerification cp fh e fp now st).2.logs = st.logs) := by
  unfold processVerification
  cases hc : findPassengersByBiometrics fh fp st.passengers with
  | nil =>
    exact ⟨fun h => Outcome.noConfusion h, fun _ => rfl⟩
  | cons c0 rest =>
    dsimp only
    split
    · exact ⟨fun h => Outcome.noConfusion h, fun _ => rfl⟩
    · split
      · exact ⟨fun h => Outcome.noConfusion h, fun _ => rfl⟩
      · split
        · exact ⟨fun h => Outcome.noConfusion h, fun _ => rfl⟩
        · split
          · exact ⟨fun h => Outcome.noConfusion h, fun _ => rfl⟩
          · refine ⟨fun _ => ⟨(selectBest fh fp e c0 rest).1, (selectBest fh fp e c0 rest).2,
              rfl, rfl, ?_⟩, fun hne => absurd rfl hne⟩
            simp [logCheckpointAccess]

/-- Witness for C2 (amended): the grant branch of a concrete run appends
exactly the one `granted` entry. -/
theorem verify_logs_exactly_on_grant_witness :
    (processVerification .security "face-1" [1] none 1 ⟨[basePassenger], [], 0⟩).1.outcome
      = .GRANTED ∧
    ∃ p s,
      (processVerification .security "face-1" [1] none 1 ⟨[basePassenger], [], 0⟩).1.passenger
        = some p ∧
      (processVerification .security "face-1" [1] none 1 ⟨[basePassenger], [], 0⟩).1.similarity
        = some s ∧
      (processVerification .security "face-1" [1] none 1 ⟨[basePassenger], [], 0⟩).2.logs
        = [] ++
          [{ id := mkLogId 0, passengerId := p.id, checkpoint := .security,
             timestamp := 1, result := .granted, staffId := "SYSTEM", notes := some s }] := by
  have hout : (processVerification .security "face-1" [1] none 1
      ⟨[basePassenger], [], 0⟩).1.outcome = .GRANTED := by
    norm_num [processVerification, findPassengersByBiometrics, selectBest, selectStep,
      verifyBiometricMatch, calculateFaceSimilarity, dotQ, normSq, simGt, isFlightValid,
      basePassenger, allFalse, updateCheckpointStatus, savePassengerData,
      logCheckpointAccess, Checkpoints.get, Checkpoints.set, List.findIdx_cons, List.find?]
  exact ⟨hout,
    (verify_logs_exactly_on_grant .security "face-1" [1] none 1 ⟨[basePassenger], [], 0⟩).1 hout⟩

/-! ## C5 — similarity on zero-norm vectors -/

/-- C5 (code bug): on the equal-length zero vectors `[0]` and `[0]` the
similarity computation divides `0` by `0` and yields NaN (`simVal … =
none`) instead of the `0` the specification requires — the source has
no zero-norm guard. -/
theorem similarity_zero_norm_nan :
    calculateFaceSimilarity [(0 : ℚ)] [(0 : ℚ)] = (0, 0) ∧
    simVal (0, 0) = none ∧ ∀ r : ℝ, simVal (0, 0) ≠ some r := by
  refine ⟨by norm_num [calculateFaceSimilarity, dotQ, normSq], by simp [simVal], ?_⟩
  intro r h
  simp [simVal] at h

/-! ## C8 — expiry sweep -/

/-- Counterexample to C8: sweeping at time `3` and again at the later
time `7` removes one record on the second run (the flight departing at
time `5` expires between the two `now` values), not `0`. -/
theorem sweep_second_later_now_cex :
    (cleanupExpiredPassengers 3 [departedPassenger]).2 = 0 ∧
    (cleanupExpiredPassengers 7 (cleanupExpiredPassengers 3 [departedPassenger]).1).2 = 1 := by
  norm_num [cleanupExpiredPassengers, isFlightValid, List.filter,
    departedPassenger, basePassenger]

/-- C8 (amended): for a store of records with parseable departure times,
the sweep keeps exactly the records with `departureTime > now`, removes
exactly those with `departureTime ≤ now`, returns the removed count, and
a second sweep with the *same* `now` removes `0` records; the empty
store sweeps to `([], 0)`. -/
theorem sweep_spec (now : ℤ) (ps : List PassengerData)
    (hparse : ∀ p ∈ ps, p.departureTime ≠ none) :
    (∀ p ∈ ps, (∃ d, p.departureTime = some d ∧ now < d) →
      p ∈ (cleanupExpiredPassengers now ps).1) ∧
    (∀ p ∈ (cleanupExpiredPassengers now ps).1,
      p ∈ ps ∧ ∃ d, p.departureTime = some d ∧ now < d) ∧
    (∀ p ∈ ps, p ∉ (cleanupExpiredPassengers now ps).1 →
      ∃ d, p.departureTime = some d ∧ d ≤ now) ∧
    (cleanupExpiredPassengers now ps).2 + (cleanupExpiredPassengers now ps).1.length
      = ps.length ∧
    cleanupExpiredPassengers now (cleanupExpiredPassengers now ps).1
      = ((cleanupExpiredPassengers now ps).1, 0) ∧
    cleanupExpiredPassengers now ([] : List PassengerData) = ([], 0) := by
  have hvalid : ∀ p : PassengerData, isFlightValid p.departureTime now = true ↔
      ∃ d, p.departureTime = some d ∧ now < d := by
    intro p
    cases hdep : p.departureTime with
    | none => simp [isFlightValid, hdep]
    | some d => simp [isFlightValid, hdep]
  refine ⟨?_, ?_, ?_, ?_, ?_, rfl⟩
  · intro p hp hfut
    exact List.mem_filter.2 ⟨hp, (hvalid p).2 hfut⟩
  · intro p hp
    exact ⟨(List.mem_filter.1 hp).1, (hvalid p).1 (List.mem_filter.1 hp).2⟩
  · intro p hp hnot
    cases hdep : p.departureTime with
    | none => exact absurd hdep (hparse p hp)
    | some d =>
      refine ⟨d, rfl, ?_⟩
      by_contra hlt
      exact hnot (List.mem_filter.2 ⟨hp, (hvalid p).2 ⟨d, hdep, lt_of_not_le hlt⟩⟩)
  · have hle : (ps.filter fun p => isFlightValid p.departureTime now).length ≤ ps.length :=
      List.length_filter_le _ _
    simpa [cleanupExpiredPassengers] using Nat.sub_add_cancel hle
  · have hfix : (cleanupExpiredPassengers now ps).1.filter
        (fun p => isFlightValid p.departureTime now) = (cleanupExpiredPassengers now ps).1 :=
      List.filter_eq_self.2 fun a ha => (List.mem_filter.1 ha).2
    simp [cleanupExpiredPassengers, hfix]

/-- Witness for C8 (amended): the concrete one-record store at time `3`:
the future flight is retained and the re-sweep removes nothing. -/
theorem sweep_spec_witness :
    departedPassenger ∈ (cleanupExpiredPassengers 3 [departedPassenger]).1 ∧
    cleanupExpiredPassengers 3 (cleanupExpiredPassengers 3 [departedPassenger]).1
      = ((cleanupExpiredPassengers 3 [departedPassenger]).1, 0) := by
  have h := sweep_spec 3 [departedPassenger]
    (by intro p hp; rw [List.mem_singleton.1 hp]; simp [departedPassenger, basePassenger])
  exact ⟨h.1 departedPassenger (List.mem_singleton.2 rfl)
    ⟨5, by norm_num [departedPassenger, basePassenger], by norm_num⟩, h.2.2.2.2.1⟩

/-! ## C9 — delete by id -/

/-- Counterexample to C9: deleting an id that is not present returns
`true`, not `false` — the source computes the filtered list and returns
`true` unconditionally. -/
theorem delete_absent_returns_true_cex :
    deletePassengerData "ghost" ([] : List PassengerData) = ([], true) := rfl

/-- C9 (amended): deleting by id never raises and returns `true` whether
or not a record with that id is present (the source reports `false` only
when the storage write throws); it removes exactly the records with
that id. -/
theorem delete_spec (pid : String) (ps : List PassengerData) :
    (deletePassengerData pid ps).2 = true ∧
    (∀ p ∈ ps, p.id ≠ pid → p ∈ (deletePassengerData pid ps).1) ∧
    (∀ p ∈ (deletePassengerData pid ps).1, p ∈ ps ∧ p.id ≠ pid) := by
  refine ⟨rfl, ?_, ?_⟩
  · intro p hp hne
    exact List.mem_filter.2 ⟨hp, by simp [hne]⟩
  · intro p hp
    have h := List.mem_filter.1 hp
    refine ⟨h.1, ?_⟩
    simpa using h.2

/-- Witness for C9 (amended): deleting the absent id `"P2"` from the
one-record store keeps the record and reports `true`. -/
theorem delete_spec_witness :
    (deletePassengerData "P2" [basePassenger]).2 = true ∧
    basePassenger ∈ (deletePassengerData "P2" [basePassenger]).1 := by
  have h := delete_spec "P2" [basePassenger]
  exact ⟨h.1, h.2.1 basePassenger (List.mem_singleton.2 rfl) (by simp [basePassenger])⟩

/-! ## C7 — enrollment validation and record creation -/

/-- `savePassengerData` appends when the id is fresh. -/
theorem savePassengerData_fresh (p : PassengerData) (ps : List PassengerData)
    (h : ∀ q ∈ ps, q.id ≠ p.id) : savePassengerData p ps = ps ++ [p] := by
  have hidx : ps.findIdx (fun q => q.id == p.id) = ps.length :=
    List.findIdx_eq_length_of_false fun q hq => by simp [h q hq]
  rw [savePassengerData]
  simp [hidx]

/-- The enrollment form with every text field filled but the departure
time left empty (`datetime-local` not set, so the record would carry an
unparseable empty string). -/
def emptyDepartureForm : EnrollmentForm :=
  { firstName := "Ada", lastName := "Lovelace", passportNumber := "N111",
    flightNumber := "EK100", gate := "A1", departureTime := none }

/-- Counterexample to C7: an enrollment with an empty/unparseable
`departureTime` is accepted (a record is created and persisted), because
the info-step gate only checks `firstName`, `lastName`,
`passportNumber` and `flightNumber`. -/
theorem enroll_missing_departure_accepted_cex :
    (enroll emptyDepartureForm (some ("face-1", [1])) (some "fp-1") "u1" 100 []).isSome
      = true ∧
    emptyDepartureForm.departureTime = none := by
  constructor
  · rfl
  · rfl

/-- C7 (amended): enrollment rejects when `firstName`, `lastName`,
`passportNumber` or `flightNumber` is empty, and when face or
fingerprint data is missing — but `departureTime` (and `gate`) are not
validated.  When the four checked fields are non-empty and both
biometric captures are present, it creates a record with id
`"TRU-" ++ uuid` (fresh provided the generated uuid is unused, in which
case persisting appends it), `enrollmentTime` stamped to `now`, all
three checkpoints `false`, and persists it via `savePassengerData`. -/
theorem enroll_spec (form : EnrollmentForm) (fd : Option (String × List ℚ))
    (fph : Option String) (fh : String) (emb : List ℚ) (fpr : String) (uuid : String)
    (now : ℤ) (ps : List PassengerData) :
    (form.firstName = "" ∨ form.lastName = "" ∨ form.passportNumber = "" ∨
      form.flightNumber = "" → enroll form fd fph uuid now ps = none) ∧
    enroll form none fph uuid now ps = none ∧
    enroll form fd none uuid now ps = none ∧
    (form.firstName ≠ "" → form.lastName ≠ "" → form.passportNumber ≠ "" →
      form.flightNumber ≠ "" →
      ∃ rec, enroll form (some (fh, emb)) (some fpr) uuid now ps
          = some (rec, savePassengerData rec ps) ∧
        rec.id = generatePassengerId uuid ∧
        rec.enrollmentTime = now ∧
        rec.checkpoints = allFalse ∧
        rec.departureTime = form.departureTime ∧
        rec.firstName = form.firstName ∧
        rec.lastName = form.lastName ∧
        rec.passportNumber = form.passportNumber ∧
        rec.flightNumber = form.flightNumber ∧
        rec.biometrics.faceHash = fh ∧
        rec.biometrics.faceEmbedding = some emb ∧
        rec.biometrics.fingerprintHash = fpr ∧
        (generatePassengerId uuid ∉ ps.map PassengerData.id →
          savePassengerData rec ps = ps ++ [rec])) := by
  refine ⟨?_, ?_, ?_, ?_⟩
  · intro h
    rcases h with h | h | h | h <;> simp [enroll, infoStepComplete, h]
  · unfold enroll completeEnrollment
    split <;> rfl
  · unfold enroll completeEnrollment
    split
    · cases fd <;> rfl
    · rfl
  · intro h1 h2 h3 h4
    have hinfo : infoStepComplete form = true := by simp [infoStepComplete, h1, h2, h3, h4]
    unfold enroll
    rw [if_pos hinfo]
    unfold completeEnrollment
    exact ⟨_, rfl, rfl, rfl, rfl, rfl, rfl, rfl, rfl, rfl, rfl, rfl, rfl,
      fun hfresh => savePassengerData_fresh _ ps fun q hq heq =>
        hfresh ((heq.trans rfl : q.id = generatePassengerId uuid) ▸
          List.mem_map_of_mem PassengerData.id hq)⟩

/-- The enrollment form with every field filled. -/
def fullForm : EnrollmentForm :=
  { firstName := "Ada", lastName := "Lovelace", passportNumber := "N111",
    flightNumber := "EK100", gate := "A1", departureTime := some 1000 }

/-- Witness for C7 (amended): a fully-filled form enrolls into the empty
store as one appended record with fresh id, stamped time, and all
checkpoints false. -/
theorem enroll_spec_witness :
    ∃ rec, enroll fullForm (some ("face-1", [1])) (some "fp-1") "u1" 7 []
        = some (rec, savePassengerData rec []) ∧
      rec.id = generatePassengerId "u1" ∧
      rec.enrollmentTime = 7 ∧
      rec.checkpoints = allFalse ∧
      rec.departureTime = fullForm.departureTime := by
  obtain ⟨rec, heq, hid, htime, hck, hdep, -⟩ :=
    (enroll_spec fullForm (some ("face-1", [1])) (some "fp-1") "face-1" [1] "fp-1" "u1" 7
      []).2.2.2
      (by simp [fullForm]) (by simp [fullForm]) (by simp [fullForm]) (by simp [fullForm])
  exact ⟨rec, heq, hid, htime, hck, hdep⟩

/-! ## C6 — best-match selection -/

theorem selectStep_none_emb (fh : String) (fp : Option String) (e : List ℚ)
    (acc : PassengerData × (ℚ × ℚ)) (c : PassengerData)
    (h : c.biometrics.faceEmbedding = none) : selectStep fh fp e acc c = acc := by
  unfold selectStep
  rw [h]

theorem verifyBiometricMatch_similarity (stored : BiometricData) (fh : String)
    (fp : Option String) (e : List ℚ) (emb0 : List ℚ)
    (h : stored.faceEmbedding = some emb0) :
    (verifyBiometricMatch stored fh fp (some e)).similarity = calculateFaceSimilarity emb0 e := by
  simp [verifyBiometricMatch, h]

theorem selectStep_some_emb (fh : String) (fp : Option String) (e : List ℚ)
    (acc : PassengerData × (ℚ × ℚ)) (c : PassengerData) (emb0 : List ℚ)
    (h : c.biometrics.faceEmbedding = some emb0) :
    selectStep fh fp e acc c =
      if simGt (calculateFaceSimilarity emb0 e) acc.2 then (c, calculateFaceSimilarity emb0 e)
      else acc := by
  unfold selectStep
  rw [h]
  dsimp only
  rw [verifyBiometricMatch_similarity c.biometrics fh fp e emb0 h]

/-- Folding the loop over candidates without embeddings changes nothing. -/
theorem foldl_selectStep_all_none (fh : String) (fp : Option String) (e : List ℚ)
    (l : List PassengerData) (acc : PassengerData × (ℚ × ℚ))
    (h : ∀ c ∈ l, c.biometrics.faceEmbedding = none) :
    l.foldl (selectStep fh fp e) acc = acc := by
  induction l with
  | nil => rfl
  | cons c cs ih =>
    rw [List.foldl_cons, selectStep_none_emb fh fp e acc c (h c (List.mem_cons_self c cs))]
    exact ih fun c' hc' => h c' (List.mem_cons_of_mem c hc')

/-- If the fold ends on a best match without a stored embedding, the
accumulator never moved: the result is the start accumulator and no
embedded candidate ever scored strictly above it. -/
theorem foldl_selectStep_none_result (fh : String) (fp : Option String) (e : List ℚ)
    (l : List PassengerData) (acc : PassengerData × (ℚ × ℚ))
    (h : (l.foldl (selectStep fh fp e) acc).1.biometrics.faceEmbedding = none) :
    l.foldl (selectStep fh fp e) acc = acc ∧
    ∀ c ∈ l, ∀ emb0, c.biometrics.faceEmbedding = some emb0 →
      simGt (calculateFaceSimilarity emb0 e) acc.2 = false := by
  induction l generalizing acc with
  | nil => exact ⟨rfl, by simp⟩
  | cons c cs ih =>
    rw [List.foldl_cons] at h ⊢
    cases hemb : c.biometrics.faceEmbedding with
    | none =>
      rw [selectStep_none_emb fh fp e acc c hemb] at h ⊢
      obtain ⟨h1, h2⟩ := ih acc h
      refine ⟨h1, ?_⟩
      intro c' hc' emb0 hc'e
      rcases List.mem_cons.1 hc' with rfl | hmem
      · rw [hemb] at hc'e
        cases hc'e
      · exact h2 c' hmem emb0 hc'e
    | some emb0 =>
      rw [selectStep_some_emb fh fp e acc c emb0 hemb] at h ⊢
      by_cases hgt : simGt (calculateFaceSimilarity emb0 e) acc.2 = true
      · rw [if_pos hgt] at h ⊢
        obtain ⟨h1, -⟩ := ih _ h
        rw [h1] at h
        dsimp only at h
        rw [hemb] at h
        cases h
      · rw [if_neg hgt] at h ⊢
        obtain ⟨h1, h2⟩ := ih acc h
        refine ⟨h1, ?_⟩
        intro c' hc' emb1 hc'e
        rcases List.mem_cons.1 hc' with rfl | hmem
        · rw [hemb] at hc'e
          injection hc'e with h'
          rw [← h']
          simpa using hgt
        · exact h2 c' hmem emb1 hc'e

/-- A candidate sharing the face hash but with no stored embedding. -/
def noEmbPassenger : PassengerData :=
  { basePassenger with
    id := "P2",
    biometrics := { faceHash := "face-1", fingerprintHash := "fp-2",
                    faceEmbedding := none, timestamp := 0 } }

/-- A candidate whose stored embedding is orthogonal to the presented
one (cosine similarity exactly `0`). -/
def orthEmbPassenger : PassengerData :=
  { basePassenger with
    id := "P3",
    biometrics := { faceHash := "face-1", fingerprintHash := "fp-3",
                    faceEmbedding := some [1, 0], timestamp := 0 } }

/-- Candidate whose embedding scores cosine `0.3` against `[1,0,0,0]`. -/
def lowSimPassenger : PassengerData :=
  { basePassenger with
    id := "P4",
    biometrics := { faceHash := "face-1", fingerprintHash := "fp-4",
                    faceEmbedding := some [3, 9, 3, 1], timestamp := 0 } }

/-- Candidate whose embedding scores cosine `0.9` against `[1,0,0,0]`. -/
def highSimPassenger : PassengerData :=
  { basePassenger with
    id := "P5",
    biometrics := { faceHash := "face-1", fingerprintHash := "fp-5",
                    faceEmbedding := some [9, 3, 3, 1], timestamp := 0 } }

/-- Counterexample to C6: a candidate without a stored embedding *is*
selected as best although another candidate has one — the embedded
candidate scores similarity `0`, which is not strictly greater than the
initial best of `0`, so the first (embedding-less) candidate survives. -/
theorem selectBest_no_embedding_cex :
    (selectBest "face-1" none [0, 1] noEmbPassenger [orthEmbPassenger]).1 = noEmbPassenger ∧
    noEmbPassenger.biometrics.faceEmbedding = none ∧
    orthEmbPassenger.biometrics.faceEmbedding ≠ none ∧
    noEmbPassenger ≠ orthEmbPassenger := by
  refine ⟨?_, rfl, by simp [orthEmbPassenger], ?_⟩
  · norm_num [selectBest, selectStep, verifyBiometricMatch, calculateFaceSimilarity,
      dotQ, normSq, simGt, noEmbPassenger, orthEmbPassenger, basePassenger]
  · intro h
    have h' := congrArg PassengerData.id h
    simp [noEmbPassenger, orthEmbPassenger, basePassenger] at h'

/-- C6 (amended): in best-match selection, (1) if no candidate has a
stored embedding the first candidate is selected with similarity `0`;
(2) a candidate without a stored embedding can be selected only when no
candidate's stored embedding scores *strictly above* `0` against the
presented embedding (positive-score candidates always displace it);
(3) a later candidate whose similarity ties the current best never
displaces it (first-seen wins); and (4) concretely, among two
candidates with the same face hash whose embeddings score `0.9` and
`0.3` against the presented embedding, the `0.9` candidate is
selected. -/
theorem selectBest_spec (fh : String) (fp : Option String) (e : List ℚ) :
    (∀ c0 rest, (∀ c ∈ c0 :: rest, c.biometrics.faceEmbedding = none) →
      selectBest fh fp e c0 rest = (c0, (0, 1))) ∧
    (∀ c0 rest, (selectBest fh fp e c0 rest).1.biometrics.faceEmbedding = none →
      selectBest fh fp e c0 rest = (c0, (0, 1)) ∧
      ∀ c ∈ c0 :: rest, ∀ emb0, c.biometrics.faceEmbedding = some emb0 →
        simGt (calculateFaceSimilarity emb0 e) (0, 1) = false) ∧
    (∀ acc c, (verifyBiometricMatch c.biometrics fh fp (some e)).similarity = acc.2 →
      selectStep fh fp e acc c = acc) ∧
    (selectBest "face-1" none [1, 0, 0, 0] lowSimPassenger [highSimPassenger]
        = (highSimPassenger, (9, 100)) ∧
      calculateFaceSimilarity [9, 3, 3, 1] [1, 0, 0, 0] = (9, 100) ∧
      calculateFaceSimilarity [3, 9, 3, 1] [1, 0, 0, 0] = (3, 100) ∧
      simVal (9, 100) = some (9 / 10) ∧
      simVal (3, 100) = some (3 / 10)) := by
  have h100 : Real.sqrt ((100 : ℚ) : ℝ) = 10 := by
    rw [show ((100 : ℚ) : ℝ) = (10 : ℝ) ^ 2 by norm_num]
    exact Real.sqrt_sq (by norm_num)
  refine ⟨?_, ?_, ?_, ?_, ?_, ?_, ?_, ?_⟩
  · intro c0 rest hnone
    exact foldl_selectStep_all_none fh fp e (c0 :: rest) (c0, (0, 1)) hnone
  · intro c0 rest hnone
    exact foldl_selectStep_none_result fh fp e (c0 :: rest) (c0, (0, 1)) hnone
  · intro acc c hsim
    cases hemb : c.biometrics.faceEmbedding with
    | none => exact selectStep_none_emb fh fp e acc c hemb
    | some emb0 =>
      rw [selectStep_some_emb fh fp e acc c emb0 hemb]
      rw [← verifyBiometricMatch_similarity c.biometrics fh fp e emb0 hemb, hsim,
        if_neg (by rw [simGt_irrefl]; exact Bool.false_ne_true)]
  · norm_num [selectBest, selectStep, verifyBiometricMatch, calculateFaceSimilarity,
      dotQ, normSq, simGt, lowSimPassenger, highSimPassenger, basePassenger]
  · norm_num [calculateFaceSimilarity, dotQ, normSq]
  · norm_num [calculateFaceSimilarity, dotQ, normSq]
  · rw [simVal, if_neg (by norm_num)]
    rw [show ((9 : ℚ) : ℝ) / Real.sqrt ((100 : ℚ) : ℝ) = 9 / 10 by rw [h100]; norm_num]
  · rw [simVal, if_neg (by norm_num)]
    rw [show ((3 : ℚ) : ℝ) / Real.sqrt ((100 : ℚ) : ℝ) = 3 / 10 by rw [h100]; norm_num]

/-- Witness for C6 (amended): with the single embedding-less candidate,
the first candidate is selected with similarity `0`. -/
theorem selectBest_spec_witness :
    selectBest "face-1" none [1] noEmbPassenger [] = (noEmbPassenger, (0, 1)) :=
  (selectBest_spec "face-1" none [1]).1 noEmbPassenger []
    (by intro c hc; rw [List.mem_singleton.1 hc]; rfl)

/-! ## C3 — the boarding-implies-prior-checkpoints invariant -/

/-- The claimed per-record invariant: boarding cleared only after
security and immigration. -/
def boardingOk (p : PassengerData) : Prop :=
  p.checkpoints.boarding = true →
    p.checkpoints.security = true ∧ p.checkpoints.immigration = true

/-- Auxiliary invariant: among records sharing an id, every record after
the first still has the enrollment-default progress (updates always hit
the first record with the id, so later duplicates are never touched). -/
def dupRel (a b : PassengerData) : Prop := a.id = b.id → b.checkpoints = allFalse

/-- The inductive store invariant. -/
def StoreInv (ps : List PassengerData) : Prop :=
  (∀ p ∈ ps, boardingOk p) ∧ ps.Pairwise dupRel

/-- Decompose a list at the element `find?` locates. -/
theorem find?_decomp {α : Type} (p : α → Bool) (l : List α) (f : α)
    (h : l.find? p = some f) :
    ∃ l1 l2, l = l1 ++ f :: l2 ∧ ∀ q ∈ l1, p q = false := by
  induction l with
  | nil => cases h
  | cons a as ih =>
    by_cases hpa : p a = true
    · rw [List.find?_cons_of_pos as hpa] at h
      injection h with h'
      exact ⟨[], as, by simp [h'], by simp⟩
    · have hpa' : p a = false := by simpa using hpa
      rw [List.find?_cons_of_neg as (by simp [hpa'])] at h
      obtain ⟨l1, l2, rfl, hl1⟩ := ih h
      refine ⟨a :: l1, l2, rfl, ?_⟩
      intro q hq
      rcases List.mem_cons.1 hq with rfl | hq2
      · exact hpa'
      · exact hl1 q hq2

/-- Granting checkpoint `cp` to the record found under `bm.id` preserves
the store invariant, provided a boarding grant had both prerequisites
true on the selected record `bm`. -/
theorem update_preserves_inv (ps : List PassengerData) (bm : PassengerData) (cp : Checkpoint)
    (hinv : StoreInv ps) (hmem : bm ∈ ps)
    (h2 : cp = .boarding →
      bm.checkpoints.security = true ∧ bm.checkpoints.immigration = true) :
    StoreInv (updateCheckpointStatus bm.id cp true ps).1 := by
  obtain ⟨hbo, hpw⟩ := hinv
  obtain ⟨f, hf⟩ : ∃ f, ps.find? (fun p => p.id == bm.id) = some f := by
    cases hfind : ps.find? (fun p => p.id == bm.id) with
    | some f => exact ⟨f, rfl⟩
    | none =>
      exfalso
      exact absurd (List.find?_eq_none.1 hfind bm hmem) (by simp)
  have hfid : f.id = bm.id := by simpa using List.find?_some hf
  obtain ⟨l1, l2, hps, hl1⟩ := find?_decomp _ ps f hf
  have hl1' : ∀ q ∈ l1, q.id ≠ bm.id := fun q hq => by simpa using hl1 q hq
  have hfmem : f ∈ ps := List.mem_of_find?_eq_some hf
  have hsave : savePassengerData { f with checkpoints := f.checkpoints.set cp true } ps
      = l1 ++ { f with checkpoints := f.checkpoints.set cp true } :: l2 := by
    rw [hps]
    exact savePassengerData_append_cons _ f l1 l2
      (fun q hq => by rw [show ({ f with checkpoints := f.checkpoints.set cp true} :
        PassengerData).id = bm.id from hfid]; exact hl1' q hq) rfl
  unfold updateCheckpointStatus
  rw [hf]
  dsimp only
  rw [hsave]
  rw [hps] at hpw hmem
  constructor
  · intro p hp
    rcases List.mem_append.1 hp with hp1 | hp2
    · exact hbo p (by rw [hps]; exact List.mem_append.2 (Or.inl hp1))
    · rcases List.mem_cons.1 hp2 with rfl | hp3
      · cases cp with
        | security =>
          intro hb
          obtain ⟨-, hi⟩ := hbo f hfmem hb
          exact ⟨rfl, hi⟩
        | immigration =>
          intro hb
          obtain ⟨hs, -⟩ := hbo f hfmem hb
          exact ⟨hs, rfl⟩
        | boarding =>
          intro _
          have hbm := h2 rfl
          rcases List.mem_append.1 hmem with hbm1 | hbm2
          · exact absurd rfl (hl1' bm hbm1)
          · rcases List.mem_cons.1 hbm2 with heq | hbm3
            · rw [heq] at hbm
              exact ⟨hbm.1, hbm.2⟩
            · have hrel : dupRel f bm :=
                (List.pairwise_cons.1 (List.pairwise_append.1 hpw).2.1).1 bm hbm3
              have hall := hrel hfid
              rw [hall] at hbm
              exact absurd hbm.1 (by simp [allFalse])
      · exact hbo p (by rw [hps]; exact List.mem_append.2 (Or.inr (List.mem_cons_of_mem f hp3)))
  · rw [List.pairwise_append] at hpw ⊢
    obtain ⟨hpw1, hpw2, hpwx⟩ := hpw
    rw [List.pairwise_cons] at hpw2 ⊢
    refine ⟨hpw1, ⟨?_, hpw2.2⟩, ?_⟩
    · intro b hb hid
      exact hpw2.1 b hb hid
    · intro a ha b hb
      rcases List.mem_cons.1 hb with rfl | hb2
      · intro hid
        exact absurd (hid.trans hfid) (hl1' a ha)
      · exact hpwx a ha b (List.mem_cons_of_mem f hb2)

/-- Membership in the candidate filter implies membership in the store. -/
theorem mem_of_mem_findPassengers (fh : String) (fp : Option String)
    (ps : List PassengerData) (p : PassengerData)
    (h : p ∈ findPassengersByBiometrics fh fp ps) : p ∈ ps :=
  List.mem_of_mem_filter h

/-- One verification step preserves the store invariant. -/
theorem processVerification_preserves_inv (cp : Checkpoint) (fh : String) (e : List ℚ)
    (fp : Option String) (now : ℤ) (st : TruidaStore)
    (h : StoreInv st.passengers) :
    StoreInv (processVerification cp fh e fp now st).2.passengers := by
  cases hc : findPassengersByBiometrics fh fp st.passengers with
  | nil =>
    rw [processVerification_no_match cp fh e fp now st hc]
    exact h
  | cons c0 rest =>
    by_cases hv : isFlightValid (selectBest fh fp e c0 rest).1.departureTime now = false
    · rw [processVerification_flight_departed cp fh e fp now st c0 rest _ hc rfl hv]
      exact h
    · have hv' : isFlightValid (selectBest fh fp e c0 rest).1.departureTime now = true := by
        simpa using hv
      by_cases h1 : cp = .immigration ∧
          (selectBest fh fp e c0 rest).1.checkpoints.security = false
      · rw [processVerification_prereq_immigration cp fh e fp now st c0 rest _ hc rfl hv' h1]
        exact h
      · by_cases hb2 : cp = .boarding ∧
            ((selectBest fh fp e c0 rest).1.checkpoints.security = false ∨
              (selectBest fh fp e c0 rest).1.checkpoints.immigration = false)
        · rw [processVerification_prereq_boarding cp fh e fp now st c0 rest _ hc rfl hv' h1 hb2]
          exact h
        · by_cases hg : (selectBest fh fp e c0 rest).1.checkpoints.get cp = true
          · rw [processVerification_already_cleared cp fh e fp now st c0 rest _ hc rfl hv' h1
              hb2 hg]
            exact h
          · have hg' : (selectBest fh fp e c0 rest).1.checkpoints.get cp = false := by
              simpa using hg
            rw [processVerification_granted cp fh e fp now st c0 rest _ hc rfl hv' h1 hb2 hg']
            dsimp only
            refine update_preserves_inv st.passengers (selectBest fh fp e c0 rest).1 cp h ?_ ?_
            · refine mem_of_mem_findPassengers fh fp st.passengers _ ?_
              rw [hc]
              exact selectBest_fst_mem fh fp e c0 rest
            · intro hcp
              constructor
              · cases hsec : (selectBest fh fp e c0 rest).1.checkpoints.security with
                | true => rfl
                | false => exact absurd ⟨hcp, Or.inl hsec⟩ hb2
              · cases himm : (selectBest fh fp e c0 rest).1.checkpoints.immigration with
                | true => rfl
                | false => exact absurd ⟨hcp, Or.inr himm⟩ hb2

/-- A whole sequence of verification calls preserves the invariant. -/
theorem runVerifications_inv (calls : List VerifyCall) (st : TruidaStore)
    (h : StoreInv st.passengers) : StoreInv (runVerifications calls st).passengers := by
  induction calls generalizing st with
  | nil => exact h
  | cons c cs ih =>
    have hstep : runVerifications (c :: cs) st =
        runVerifications cs ((processVerification c.checkpoint c.faceHash c.faceEmbedding
          c.fingerprintHash c.now st).2) := rfl
    rw [hstep]
    exact ih _ (processVerification_preserves_inv c.checkpoint c.faceHash c.faceEmbedding
      c.fingerprintHash c.now st h)

/-- C3: starting from records with all checkpoints false, after any
sequence of verify calls every record satisfies `boarding → security ∧
immigration`; moreover a `PREREQUISITE_MISSING` outcome never changes
the store (verify grants immigration only when security is already set
and boarding only when both prior gates are set, denying otherwise with
no state change). -/
theorem verify_boarding_invariant (calls : List VerifyCall) (st0 : TruidaStore)
    (h0 : ∀ p ∈ st0.passengers, p.checkpoints = allFalse) :
    (∀ p ∈ (runVerifications calls st0).passengers,
      p.checkpoints.boarding = true →
        p.checkpoints.security = true ∧ p.checkpoints.immigration = true) ∧
    ∀ (cp : Checkpoint) (fh : String) (e : List ℚ) (fp : Option String) (now : ℤ)
      (st : TruidaStore),
      (processVerification cp fh e fp now st).1.outcome = .PREREQUISITE_MISSING →
        (processVerification cp fh e fp now st).2 = st := by
  constructor
  · have hinv0 : StoreInv st0.passengers := by
      constructor
      · intro p hp hb
        rw [h0 p hp] at hb
        exact absurd hb (by simp [allFalse])
      · exact List.pairwise_of_forall_mem_list fun a _ b hb _ => h0 b hb
    exact (runVerifications_inv calls st0 hinv0).1
  · intro cp fh e fp now st h
    cases hc : findPassengersByBiometrics fh fp st.passengers with
    | nil => rw [processVerification_no_match cp fh e fp now st hc]
    | cons c0 rest =>
      by_cases hv : isFlightValid (selectBest fh fp e c0 rest).1.departureTime now = false
      · rw [processVerification_flight_departed cp fh e fp now st c0 rest _ hc rfl hv]
      · have hv' : isFlightValid (selectBest fh fp e c0 rest).1.departureTime now = true := by
          simpa using hv
        by_cases h1 : cp = .immigration ∧
            (selectBest fh fp e c0 rest).1.checkpoints.security = false
        · rw [processVerification_prereq_immigration cp fh e fp now st c0 rest _ hc rfl hv' h1]
        · by_cases hb2 : cp = .boarding ∧
              ((selectBest fh fp e c0 rest).1.checkpoints.security = false ∨
                (selectBest fh fp e c0 rest).1.checkpoints.immigration = false)
          · rw [processVerification_prereq_boarding cp fh e fp now st c0 rest _ hc rfl hv'
              h1 hb2]
          · by_cases hg : (selectBest fh fp e c0 rest).1.checkpoints.get cp = true
            · rw [processVerification_already_cleared cp fh e fp now st c0 rest _ hc rfl hv'
                h1 hb2 hg]
            · have hg' : (selectBest fh fp e c0 rest).1.checkpoints.get cp = false := by
                simpa using hg
              rw [processVerification_granted cp fh e fp now st c0 rest _ hc rfl hv' h1
                hb2 hg'] at h
              exact absurd h (by intro h'; exact Outcome.noConfusion h')

/-- Witness for C3: a concrete all-false store run through a premature
boarding attempt still satisfies the invariant. -/
theorem verify_boarding_invariant_witness :
    (∀ p ∈ ([basePassenger] : List PassengerData), p.checkpoints = allFalse) ∧
    (∀ p ∈ (runVerifications [⟨.boarding, "face-1", [1], none, 1⟩]
        ⟨[basePassenger], [], 0⟩).passengers,
      p.checkpoints.boarding = true →
        p.checkpoints.security = true ∧ p.checkpoints.immigration = true) := by
  have h0 : ∀ p ∈ ([basePassenger] : List PassengerData), p.checkpoints = allFalse := by
    intro p hp
    rw [List.mem_singleton.1 hp]
    rfl
  exact ⟨h0, (verify_boarding_invariant [⟨.boarding, "face-1", [1], none, 1⟩]
    ⟨[basePassenger], [], 0⟩ h0).1⟩

/-! ## C4 and C10 — grant frame and idempotent re-entry -/

/-- Replacing one candidate by a record with the same biometrics leaves
the best-match fold related: scores agree and the selected record is
unchanged or is the replacement of the previously selected one. -/
theorem foldl_selectStep_rel (fh : String) (fp : Option String) (e : List ℚ)
    (p p' : PassengerData) (hbio : p'.biometrics = p.biometrics)
    (L L' : List PassengerData)
    (hLL : List.Forall₂ (fun c c' => c' = c ∨ (c = p ∧ c' = p')) L L') :
    ∀ (a b : PassengerData × (ℚ × ℚ)),
      b.2 = a.2 → (b.1 = a.1 ∨ (a.1 = p ∧ b.1 = p')) →
      (L'.foldl (selectStep fh fp e) b).2 = (L.foldl (selectStep fh fp e) a).2 ∧
      ((L'.foldl (selectStep fh fp e) b).1 = (L.foldl (selectStep fh fp e) a).1 ∨
        ((L.foldl (selectStep fh fp e) a).1 = p ∧
          (L'.foldl (selectStep fh fp e) b).1 = p')) := by
  induction hLL with
  | nil =>
    intro a b h2 h1
    exact ⟨h2, h1⟩
  | @cons c c' L1 L2 hcc hrest ih =>
    intro a b h2 h1
    rw [List.foldl_cons, List.foldl_cons]
    rcases hcc with hcc | ⟨hcp, hcp'⟩
    · rw [hcc]
      cases hemb : c.biometrics.faceEmbedding with
      | none =>
        rw [selectStep_none_emb fh fp e a c hemb, selectStep_none_emb fh fp e b c hemb]
        exact ih a b h2 h1
      | some emb0 =>
        rw [selectStep_some_emb fh fp e a c emb0 hemb, selectStep_some_emb fh fp e b c emb0 hemb]
        by_cases hgt : simGt (calculateFaceSimilarity emb0 e) a.2 = true
        · rw [if_pos hgt, if_pos (by rw [h2]; exact hgt)]
          exact ih (c, calculateFaceSimilarity emb0 e) (c, calculateFaceSimilarity emb0 e)
            rfl (Or.inl rfl)
        · rw [if_neg hgt, if_neg (by rw [h2]; exact hgt)]
          exact ih a b h2 h1
    · rw [hcp, hcp']
      cases hemb : p.biometrics.faceEmbedding with
      | none =>
        have hemb' : p'.biometrics.faceEmbedding = none := by rw [hbio]; exact hemb
        rw [selectStep_none_emb fh fp e a p hemb, selectStep_none_emb fh fp e b p' hemb']
        exact ih a b h2 h1
      | some emb0 =>
        have hemb' : p'.biometrics.faceEmbedding = some emb0 := by rw [hbio]; exact hemb
        rw [selectStep_some_emb fh fp e a p emb0 hemb,
          selectStep_some_emb fh fp e b p' emb0 hemb']
        by_cases hgt : simGt (calculateFaceSimilarity emb0 e) a.2 = true
        · rw [if_pos hgt, if_pos (by rw [h2]; exact hgt)]
          exact ih (p, calculateFaceSimilarity emb0 e) (p', calculateFaceSimilarity emb0 e)
            rfl (Or.inr ⟨rfl, rfl⟩)
        · rw [if_neg hgt, if_neg (by rw [h2]; exact hgt)]
          exact ih a b h2 h1

/-- If the best match among `F1 ++ p :: F2` is `p` with score `s`, then
after replacing `p` by the biometrically-identical `p'` the best match
is `p'` with the same score. -/
theorem selectBest_of_replace (fh : String) (fp : Option String) (e : List ℚ)
    (p p' : PassengerData) (s : ℚ × ℚ)
    (hbio : p'.biometrics = p.biometrics) (hne : p' ≠ p)
    (F1 F2 : List PassengerData) (hpF1 : p ∉ F1) (hpF2 : p ∉ F2)
    (c0 : PassengerData) (rest : List PassengerData)
    (c0' : PassengerData) (rest' : List PassengerData)
    (hcand : F1 ++ p :: F2 = c0 :: rest) (hcand' : F1 ++ p' :: F2 = c0' :: rest')
    (hsel : selectBest fh fp e c0 rest = (p, s)) :
    selectBest fh fp e c0' rest' = (p', s) := by
  have hrel : List.Forall₂ (fun c c' => c' = c ∨ (c = p ∧ c' = p'))
      (c0 :: rest) (c0' :: rest') := by
    rw [← hcand, ← hcand']
    refine List.rel_append ?_ (List.Forall₂.cons ?_ ?_)
    · exact List.forall₂_same.2 fun x _ => Or.inl rfl
    · exact Or.inr ⟨rfl, rfl⟩
    · exact List.forall₂_same.2 fun x _ => Or.inl rfl
  have hhead := (List.forall₂_cons.1 hrel).1
  have hmain := foldl_selectStep_rel fh fp e p p' hbio (c0 :: rest) (c0' :: rest') hrel
    (c0, (0, 1)) (c0', (0, 1)) rfl hhead
  rw [selectBest] at hsel
  rw [hsel] at hmain
  obtain ⟨hs2, hf1⟩ := hmain
  have hfst : (selectBest fh fp e c0' rest').1 = p' := by
    rcases hf1 with h | h
    · exfalso
      have hm := selectBest_fst_mem fh fp e c0' rest'
      rw [selectBest] at hm
      rw [h] at hm
      rw [← hcand'] at hm
      rcases List.mem_append.1 hm with hm1 | hm2
      · exact hpF1 hm1
      · rcases List.mem_cons.1 hm2 with heq | hm3
        · exact hne heq.symm
        · exact hpF2 hm3
    · exact h.2
  refine Prod.ext hfst ?_
  rw [selectBest]
  exact hs2

/-- Updating the checkpoint of the (unique first) record with the given
id replaces exactly that record in place. -/
theorem updateCheckpointStatus_decomp (p : PassengerData) (cp : Checkpoint)
    (l1 l2 : List PassengerData) (hl1 : ∀ q ∈ l1, q.id ≠ p.id) :
    updateCheckpointStatus p.id cp true (l1 ++ p :: l2) =
      (l1 ++ { p with checkpoints := p.checkpoints.set cp true } :: l2, true) := by
  unfold updateCheckpointStatus
  rw [find?_append_cons _ l1 l2 p (fun q hq => by simp [hl1 q hq]) (by simp)]
  dsimp only
  rw [savePassengerData_append_cons { p with checkpoints := p.checkpoints.set cp true }
    p l1 l2 (fun q hq => hl1 q hq) rfl]

/-- C10: a `GRANTED` verify call (on a store with pairwise-distinct
record ids, the store invariant) changes only the granted checkpoint
flag of the single selected best-match record, flipping it from `false`
to `true`: the record keeps its other two flags and every other field,
every other record stays in place, and the log changes only by one
appended entry. -/
theorem verify_granted_frame (cp : Checkpoint) (fh : String) (e : List ℚ)
    (fp : Option String) (now : ℤ) (st : TruidaStore)
    (hnd : (st.passengers.map PassengerData.id).Nodup)
    (hres : (processVerification cp fh e fp now st).1.outcome = .GRANTED) :
    ∃ p s l1 l2,
      (processVerification cp fh e fp now st).1.passenger = some p ∧
      (processVerification cp fh e fp now st).1.similarity = some s ∧
      st.passengers = l1 ++ p :: l2 ∧
      p.checkpoints.get cp = false ∧
      (processVerification cp fh e fp now st).2.passengers =
        l1 ++ { p with checkpoints := p.checkpoints.set cp true } :: l2 ∧
      (p.checkpoints.set cp true).get cp = true ∧
      (∀ cp', cp' ≠ cp → (p.checkpoints.set cp true).get cp' = p.checkpoints.get cp') ∧
      ({ p with checkpoints := p.checkpoints.set cp true} : PassengerData).id = p.id ∧
      ({ p with checkpoints := p.checkpoints.set cp true} : PassengerData).passportNumber
        = p.passportNumber ∧
      ({ p with checkpoints := p.checkpoints.set cp true} : PassengerData).firstName
        = p.firstName ∧
      ({ p with checkpoints := p.checkpoints.set cp true} : PassengerData).lastName
        = p.lastName ∧
      ({ p with checkpoints := p.checkpoints.set cp true} : PassengerData).flightNumber
        = p.flightNumber ∧
      ({ p with checkpoints := p.checkpoints.set cp true} : PassengerData).gate = p.gate ∧
      ({ p with checkpoints := p.checkpoints.set cp true} : PassengerData).departureTime
        = p.departureTime ∧
      ({ p with checkpoints := p.checkpoints.set cp true} : PassengerData).biometrics
        = p.biometrics ∧
      ({ p with checkpoints := p.checkpoints.set cp true} : PassengerData).enrollmentTime
        = p.enrollmentTime ∧
      ({ p with checkpoints := p.checkpoints.set cp true} : PassengerData).guardianId
        = p.guardianId ∧
      (processVerification cp fh e fp now st).2.logs = st.logs ++
        [{ id := mkLogId st.nextLogId, passengerId := p.id, checkpoint := cp,
           timestamp := now, result := .granted, staffId := "SYSTEM", notes := some s }] := by
  cases hc : findPassengersByBiometrics fh fp st.passengers with
  | nil =>
    rw [processVerification_no_match cp fh e fp now st hc] at hres
    exact absurd hres (by intro h; exact Outcome.noConfusion h)
  | cons c0 rest =>
    by_cases hv : isFlightValid (selectBest fh fp e c0 rest).1.departureTime now = false
    · rw [processVerification_flight_departed cp fh e fp now st c0 rest _ hc rfl hv] at hres
      exact absurd hres (by intro h; exact Outcome.noConfusion h)
    · have hv' : isFlightValid (selectBest fh fp e c0 rest).1.departureTime now = true := by
        simpa using hv
      by_cases h1 : cp = .immigration ∧
          (selectBest fh fp e c0 rest).1.checkpoints.security = false
      · rw [processVerification_prereq_immigration cp fh e fp now st c0 rest _ hc rfl hv'
          h1] at hres
        exact absurd hres (by intro h; exact Outcome.noConfusion h)
      · by_cases hb2 : cp = .boarding ∧
            ((selectBest fh fp e c0 rest).1.checkpoints.security = false ∨
              (selectBest fh fp e c0 rest).1.checkpoints.immigration = false)
        · rw [processVerification_prereq_boarding cp fh e fp now st c0 rest _ hc rfl hv'
            h1 hb2] at hres
          exact absurd hres (by intro h; exact Outcome.noConfusion h)
        · by_cases hg : (selectBest fh fp e c0 rest).1.checkpoints.get cp = true
          · rw [processVerification_already_cleared cp fh e fp now st c0 rest _ hc rfl hv'
              h1 hb2 hg] at hres
            exact absurd hres (by intro h; exact Outcome.noConfusion h)
          · have hg' : (selectBest fh fp e c0 rest).1.checkpoints.get cp = false := by
              simpa using hg
            have hmem : (selectBest fh fp e c0 rest).1 ∈ st.passengers := by
              refine mem_of_mem_findPassengers fh fp st.passengers _ ?_
              rw [hc]
              exact selectBest_fst_mem fh fp e c0 rest
            obtain ⟨l1, l2, hps, hl1, hl2⟩ :=
              exists_decomp_of_nodup _ st.passengers hnd hmem
            have hupd : (updateCheckpointStatus (selectBest fh fp e c0 rest).1.id cp true
                st.passengers).1 = l1 ++ { (selectBest fh fp e c0 rest).1 with
                  checkpoints := (selectBest fh fp e c0 rest).1.checkpoints.set cp true } ::
                l2 := by
              rw [hps, updateCheckpointStatus_decomp _ cp l1 l2 hl1]
            rw [processVerification_granted cp fh e fp now st c0 rest _ hc rfl hv' h1
              hb2 hg']
            exact ⟨(selectBest fh fp e c0 rest).1, (selectBest fh fp e c0 rest).2, l1, l2,
              rfl, rfl, hps, hg', hupd, Checkpoints.get_set_self _ cp true,
              fun cp' hne => Checkpoints.get_set_ne _ cp cp' true hne,
              rfl, rfl, rfl, rfl, rfl, rfl, rfl, rfl, rfl, rfl, rfl⟩

/-- Witness for C10: the concrete security grant on the one-record store. -/
theorem verify_granted_frame_witness :
    ∃ p s l1 l2,
      (processVerification .security "face-1" [1] none 1
        ⟨[basePassenger], [], 0⟩).1.passenger = some p ∧
      (processVerification .security "face-1" [1] none 1
        ⟨[basePassenger], [], 0⟩).1.similarity = some s ∧
      [basePassenger] = l1 ++ p :: l2 ∧
      p.checkpoints.get .security = false ∧
      (processVerification .security "face-1" [1] none 1
        ⟨[basePassenger], [], 0⟩).2.passengers =
        l1 ++ { p with checkpoints := p.checkpoints.set .security true } :: l2 ∧
      (p.checkpoints.set .security true).get .security = true ∧
      (∀ cp', cp' ≠ Checkpoint.security →
        (p.checkpoints.set .security true).get cp' = p.checkpoints.get cp') ∧
      ({ p with checkpoints := p.checkpoints.set .security true} : PassengerData).id = p.id ∧
      ({ p with checkpoints := p.checkpoints.set .security true} : PassengerData).passportNumber
        = p.passportNumber ∧
      ({ p with checkpoints := p.checkpoints.set .security true} : PassengerData).firstName
        = p.firstName ∧
      ({ p with checkpoints := p.checkpoints.set .security true} : PassengerData).lastName
        = p.lastName ∧
      ({ p with checkpoints := p.checkpoints.set .security true} : PassengerData).flightNumber
        = p.flightNumber ∧
      ({ p with checkpoints := p.checkpoints.set .security true} : PassengerData).gate
        = p.gate ∧
      ({ p with checkpoints := p.checkpoints.set .security true} : PassengerData).departureTime
        = p.departureTime ∧
      ({ p with checkpoints := p.checkpoints.set .security true} : PassengerData).biometrics
        = p.biometrics ∧
      ({ p with checkpoints := p.checkpoints.set .security true} : PassengerData).enrollmentTime
        = p.enrollmentTime ∧
      ({ p with checkpoints := p.checkpoints.set .security true} : PassengerData).guardianId
        = p.guardianId ∧
      (processVerification .security "face-1" [1] none 1
        ⟨[basePassenger], [], 0⟩).2.logs = [] ++
        [{ id := mkLogId 0, passengerId := p.id, checkpoint := .security,
           timestamp := 1, result := .granted, staffId := "SYSTEM", notes := some s }] :=
  verify_granted_frame .security "face-1" [1] none 1 ⟨[basePassenger], [], 0⟩
    (by simp [basePassenger])
    (by norm_num [processVerification, findPassengersByBiometrics, selectBest, selectStep,
      verifyBiometricMatch, calculateFaceSimilarity, dotQ, normSq, simGt, isFlightValid,
      basePassenger, allFalse, updateCheckpointStatus, savePassengerData,
      logCheckpointAccess, Checkpoints.get, Checkpoints.set, List.findIdx_cons, List.find?])

/-- The candidate filter distributes over append. -/
theorem findPassengers_append (fh : String) (fp : Option String)
    (l1 l2 : List PassengerData) :
    findPassengersByBiometrics fh fp (l1 ++ l2) =
      findPassengersByBiometrics fh fp l1 ++ findPassengersByBiometrics fh fp l2 := by
  unfold findPassengersByBiometrics
  exact List.filter_append l1 l2

/-- A record that passes the candidate filter somewhere passes it as the
head of any list. -/
theorem findPassengers_cons_pos (fh : String) (fp : Option String) (a : PassengerData)
    (l ps : List PassengerData) (h : a ∈ findPassengersByBiometrics fh fp ps) :
    findPassengersByBiometrics fh fp (a :: l) = a :: findPassengersByBiometrics fh fp l := by
  unfold findPassengersByBiometrics at h ⊢
  exact List.filter_cons_of_pos ((List.mem_filter.1 h).2)

/-- As `findPassengers_cons_pos`, for a head with the same biometrics as
a record passing the filter. -/
theorem findPassengers_cons_bio (fh : String) (fp : Option String) (a a' : PassengerData)
    (l ps : List PassengerData) (hbio : a'.biometrics = a.biometrics)
    (h : a ∈ findPassengersByBiometrics fh fp ps) :
    findPassengersByBiometrics fh fp (a' :: l) = a' :: findPassengersByBiometrics fh fp l := by
  unfold findPassengersByBiometrics at h ⊢
  have h2 := (List.mem_filter.1 h).2
  refine List.filter_cons_of_pos ?_
  cases fp with
  | none =>
    dsimp only at h2 ⊢
    rw [hbio]
    exact h2
  | some x =>
    dsimp only at h2 ⊢
    rw [hbio]
    exact h2

/-- Counterexample to C4: the double verify yields `GRANTED` then
`ALREADY_CLEARED` with exactly one state mutation, but only *one* log
entry is appended in total, not two — the `ALREADY_CLEARED` branch does
not log. -/
theorem verify_twice_one_log_cex :
    (processVerification .security "face-1" [1] none 1 ⟨[basePassenger], [], 0⟩).1.outcome
      = .GRANTED ∧
    (processVerification .security "face-1" [1] none 1
      (processVerification .security "face-1" [1] none 1 ⟨[basePassenger], [], 0⟩).2).1.outcome
      = .ALREADY_CLEARED ∧
    (processVerification .security "face-1" [1] none 1
      (processVerification .security "face-1" [1] none 1 ⟨[basePassenger], [], 0⟩).2).2.logs.length
      = 1 := by
  norm_num [processVerification, findPassengersByBiometrics, selectBest, selectStep,
    verifyBiometricMatch, calculateFaceSimilarity, dotQ, normSq, simGt, isFlightValid,
    basePassenger, allFalse, updateCheckpointStatus, savePassengerData,
    logCheckpointAccess, Checkpoints.get, Checkpoints.set, List.findIdx_cons, List.find?]

/-- C4 (amended): calling verify twice with the same checkpoint and the
same inputs, on a store with pairwise-distinct ids whose selected best
match has a valid flight, met prerequisites and an unset requested
checkpoint, yields `GRANTED` then `ALREADY_CLEARED`, with exactly one
mutation of the record's state (the first call sets the flag, the
second changes nothing — not even the log) and exactly *one* appended
log entry, with result `granted`. -/
theorem verify_idempotent_grant_then_already (cp : Checkpoint) (fh : String) (e : List ℚ)
    (fp : Option String) (now : ℤ) (st : TruidaStore) (c0 : PassengerData)
    (rest : List PassengerData) (p : PassengerData) (s : ℚ × ℚ)
    (hnd : (st.passengers.map PassengerData.id).Nodup)
    (hc : findPassengersByBiometrics fh fp st.passengers = c0 :: rest)
    (hb : selectBest fh fp e c0 rest = (p, s))
    (hv : isFlightValid p.departureTime now = true)
    (hpre1 : cp = .immigration → p.checkpoints.security = true)
    (hpre2 : cp = .boarding →
      p.checkpoints.security = true ∧ p.checkpoints.immigration = true)
    (hflag : p.checkpoints.get cp = false) :
    ∃ l1 l2,
      st.passengers = l1 ++ p :: l2 ∧
      processVerification cp fh e fp now st =
        (⟨.GRANTED, some p, some s⟩,
         { passengers := l1 ++ { p with checkpoints := p.checkpoints.set cp true } :: l2,
           logs := st.logs ++
             [{ id := mkLogId st.nextLogId, passengerId := p.id, checkpoint := cp,
                timestamp := now, result := .granted, staffId := "SYSTEM", notes := some s }],
           nextLogId := st.nextLogId + 1 }) ∧
      processVerification cp fh e fp now (processVerification cp fh e fp now st).2 =
        (⟨.ALREADY_CLEARED, some { p with checkpoints := p.checkpoints.set cp true },
          some s⟩,
         (processVerification cp fh e fp now st).2) := by
  have h1 : ¬(cp = .immigration ∧ p.checkpoints.security = false) := by
    rintro ⟨hcp, hsec⟩
    rw [hpre1 hcp] at hsec
    exact Bool.noConfusion hsec
  have hb2 : ¬(cp = .boarding ∧
      (p.checkpoints.security = false ∨ p.checkpoints.immigration = false)) := by
    rintro ⟨hcp, hor⟩
    rcases hor with hsec | himm
    · rw [(hpre2 hcp).1] at hsec
      exact Bool.noConfusion hsec
    · rw [(hpre2 hcp).2] at himm
      exact Bool.noConfusion himm
  have hmemc : p ∈ c0 :: rest := by
    have h := selectBest_fst_mem fh fp e c0 rest
    rw [hb] at h
    exact h
  have hpmemf : p ∈ findPassengersByBiometrics fh fp st.passengers := by
    rw [hc]
    exact hmemc
  have hmem : p ∈ st.passengers := mem_of_mem_findPassengers fh fp st.passengers p hpmemf
  obtain ⟨l1, l2, hps, hl1, hl2⟩ := exists_decomp_of_nodup p st.passengers hnd hmem
  have hcand : findPassengersByBiometrics fh fp l1 ++ p :: findPassengersByBiometrics fh fp l2
      = c0 :: rest := by
    rw [← hc, hps, findPassengers_append fh fp l1 (p :: l2),
      findPassengers_cons_pos fh fp p l2 st.passengers hpmemf]
  have hfind1 : findPassengersByBiometrics fh fp
      (l1 ++ { p with checkpoints := p.checkpoints.set cp true } :: l2)
      = findPassengersByBiometrics fh fp l1 ++
        { p with checkpoints := p.checkpoints.set cp true } ::
        findPassengersByBiometrics fh fp l2 := by
    rw [findPassengers_append fh fp l1
        ({ p with checkpoints := p.checkpoints.set cp true } :: l2),
      findPassengers_cons_bio fh fp p { p with checkpoints := p.checkpoints.set cp true }
        l2 st.passengers rfl hpmemf]
  obtain ⟨c0', rest', hF⟩ : ∃ c0' rest',
      findPassengersByBiometrics fh fp l1 ++
        { p with checkpoints := p.checkpoints.set cp true } ::
        findPassengersByBiometrics fh fp l2 = c0' :: rest' := by
    cases hl : findPassengersByBiometrics fh fp l1 with
    | nil => exact ⟨_, _, rfl⟩
    | cons a as => exact ⟨a, _, rfl⟩
  have hne : ({ p with checkpoints := p.checkpoints.set cp true } : PassengerData) ≠ p := by
    intro h
    exact Checkpoints.set_ne_self p.checkpoints cp hflag (congrArg PassengerData.checkpoints h)
  have hpF1 : p ∉ findPassengersByBiometrics fh fp l1 := fun hx =>
    hl1 p (mem_of_mem_findPassengers fh fp l1 p hx) rfl
  have hpF2 : p ∉ findPassengersByBiometrics fh fp l2 := fun hx =>
    hl2 p (mem_of_mem_findPassengers fh fp l2 p hx) rfl
  have hsel' : selectBest fh fp e c0' rest'
      = ({ p with checkpoints := p.checkpoints.set cp true }, s) :=
    selectBest_of_replace fh fp e p { p with checkpoints := p.checkpoints.set cp true }
      s rfl hne _ _ hpF1 hpF2 c0 rest c0' rest' hcand hF hb
  have hupd : (updateCheckpointStatus p.id cp true st.passengers).1
      = l1 ++ { p with checkpoints := p.checkpoints.set cp true } :: l2 := by
    rw [hps, updateCheckpointStatus_decomp p cp l1 l2 hl1]
  have hfirst : processVerification cp fh e fp now st =
      (⟨.GRANTED, some p, some s⟩,
       { passengers := l1 ++ { p with checkpoints := p.checkpoints.set cp true } :: l2,
         logs := st.logs ++
           [{ id := mkLogId st.nextLogId, passengerId := p.id, checkpoint := cp,
              timestamp := now, result := .granted, staffId := "SYSTEM", notes := some s }],
         nextLogId := st.nextLogId + 1 }) := by
    rw [processVerification_granted cp fh e fp now st c0 rest (p, s) hc hb hv h1 hb2 hflag]
    rw [hupd]
  have hsecond : processVerification cp fh e fp now
      ({ passengers := l1 ++ { p with checkpoints := p.checkpoints.set cp true } :: l2,
         logs := st.logs ++
           [{ id := mkLogId st.nextLogId, passengerId := p.id, checkpoint := cp,
              timestamp := now, result := .granted, staffId := "SYSTEM", notes := some s }],
         nextLogId := st.nextLogId + 1 } : TruidaStore) =
      (⟨.ALREADY_CLEARED, some { p with checkpoints := p.checkpoints.set cp true }, some s⟩,
       { passengers := l1 ++ { p with checkpoints := p.checkpoints.set cp true } :: l2,
         logs := st.logs ++
           [{ id := mkLogId st.nextLogId, passengerId := p.id, checkpoint := cp,
              timestamp := now, result := .granted, staffId := "SYSTEM", notes := some s }],
         nextLogId := st.nextLogId + 1 }) := by
    refine processVerification_already_cleared cp fh e fp now _ c0' rest' _ ?_ hsel' hv ?_ ?_ ?_
    · show findPassengersByBiometrics fh fp
          (l1 ++ { p with checkpoints := p.checkpoints.set cp true } :: l2) = c0' :: rest'
      rw [hfind1]
      exact hF
    · rintro ⟨hcp, hsec⟩
      rw [hcp] at hsec
      have hs := hpre1 hcp
      exact Bool.noConfusion (hs.symm.trans hsec)
    · rintro ⟨hcp, hor⟩
      rw [hcp] at hor
      rcases hor with hsec | himm
      · exact Bool.noConfusion ((hpre2 hcp).1.symm.trans hsec)
      · exact Bool.noConfusion ((hpre2 hcp).2.symm.trans himm)
    · exact Checkpoints.get_set_self p.checkpoints cp true
  refine ⟨l1, l2, hps, hfirst, ?_⟩
  rw [hfirst]
  exact hsecond

/-- Witness for C4 (amended): the concrete double security verification
of the one-record store. -/
theorem verify_idempotent_witness :
    ∃ l1 l2,
      [basePassenger] = l1 ++ basePassenger :: l2 ∧
      processVerification .security "face-1" [1] none 1 ⟨[basePassenger], [], 0⟩ =
        (⟨.GRANTED, some basePassenger, some (1, 1)⟩,
         { passengers := l1 ++
             { basePassenger with
               checkpoints := basePassenger.checkpoints.set .security true } :: l2,
           logs := [] ++
             [{ id := mkLogId 0, passengerId := basePassenger.id, checkpoint := .security,
                timestamp := 1, result := .granted, staffId := "SYSTEM",
                notes := some (1, 1) }],
           nextLogId := 0 + 1 }) ∧
      processVerification .security "face-1" [1] none 1
          (processVerification .security "face-1" [1] none 1 ⟨[basePassenger], [], 0⟩).2 =
        (⟨.ALREADY_CLEARED,
          some { basePassenger with
            checkpoints := basePassenger.checkpoints.set .security true }, some (1, 1)⟩,
         (processVerification .security "face-1" [1] none 1 ⟨[basePassenger], [], 0⟩).2) :=
  verify_idempotent_grant_then_already .security "face-1" [1] none 1
    ⟨[basePassenger], [], 0⟩ basePassenger [] basePassenger (1, 1)
    (by simp [basePassenger])
    (by norm_num [findPassengersByBiometrics, basePassenger])
    (by norm_num [selectBest, selectStep, verifyBiometricMatch, calculateFaceSimilarity,
      dotQ, normSq, simGt, basePassenger])
    (by norm_num [isFlightValid, basePassenger])
    (fun h => absurd h security_ne_immigration)
    (fun h => absurd h security_ne_boarding)
    rfl

/-! ## Faithfulness of the similarity-score comparison -/

/-- A comparison involving a NaN score is false, as in JavaScript. -/
theorem simGt_nan (s t : ℚ × ℚ) (h : s.2 = 0 ∨ t.2 = 0) : simGt s t = false := by
  unfold simGt
  rw [if_pos h]

/-- On non-NaN scores, `simGt` agrees exactly with the strict comparison
of the real values the pairs denote: `simGt` is a faithful model of the
float comparison `similarity > bestSimilarity` of the source. -/
theorem simGt_iff_val (s t : ℚ × ℚ) (hs : 0 < s.2) (ht : 0 < t.2) :
    simGt s t = true ↔
      (t.1 : ℝ) / Real.sqrt (t.2 : ℝ) < (s.1 : ℝ) / Real.sqrt (s.2 : ℝ) := by
  have hs2 : (0 : ℝ) < (s.2 : ℝ) := by exact_mod_cast hs
  have ht2 : (0 : ℝ) < (t.2 : ℝ) := by exact_mod_cast ht
  have hS : 0 < Real.sqrt (s.2 : ℝ) := Real.sqrt_pos.2 hs2
  have hT : 0 < Real.sqrt (t.2 : ℝ) := Real.sqrt_pos.2 ht2
  have hSq : Real.sqrt (s.2 : ℝ) * Real.sqrt (s.2 : ℝ) = (s.2 : ℝ) :=
    Real.mul_self_sqrt hs2.le
  have hTq : Real.sqrt (t.2 : ℝ) * Real.sqrt (t.2 : ℝ) = (t.2 : ℝ) :=
    Real.mul_self_sqrt ht2.le
  unfold simGt
  rw [if_neg (by push_neg; exact ⟨hs.ne.symm, ht.ne.symm⟩), div_lt_div_iff₀ hT hS]
  by_cases hc1 : 0 < s.1
  · rw [if_pos hc1]
    have hcs : (0 : ℝ) < (s.1 : ℝ) := by exact_mod_cast hc1
    by_cases hc2 : 0 < t.1
    · rw [if_pos hc2, decide_eq_true_eq]
      have hct : (0 : ℝ) < (t.1 : ℝ) := by exact_mod_cast hc2
      have h1 : (0 : ℝ) ≤ (t.1 : ℝ) * Real.sqrt (s.2 : ℝ) := mul_nonneg hct.le hS.le
      have h2 : (0 : ℝ) ≤ (s.1 : ℝ) * Real.sqrt (t.2 : ℝ) := mul_nonneg hcs.le hT.le
      rw [mul_self_lt_mul_self_iff h1 h2]
      constructor
      · intro h
        have hr : (t.1 : ℝ) ^ 2 * (s.2 : ℝ) < (s.1 : ℝ) ^ 2 * (t.2 : ℝ) := by exact_mod_cast h
        nlinarith [hSq, hTq, hr]
      · intro h
        have hr : (t.1 : ℝ) ^ 2 * (s.2 : ℝ) < (s.1 : ℝ) ^ 2 * (t.2 : ℝ) := by
          nlinarith [hSq, hTq, h]
        exact_mod_cast hr
    · rw [if_neg hc2]
      push_neg at hc2
      have hct : (t.1 : ℝ) ≤ 0 := by exact_mod_cast hc2
      constructor
      · intro _
        have hL : (t.1 : ℝ) * Real.sqrt (s.2 : ℝ) ≤ 0 := mul_nonpos_of_nonpos_of_nonneg hct hS.le
        have hR : (0 : ℝ) < (s.1 : ℝ) * Real.sqrt (t.2 : ℝ) := mul_pos hcs hT
        linarith
      · intro _
        rfl
  · rw [if_neg hc1]
    push_neg at hc1
    have hcs : (s.1 : ℝ) ≤ 0 := by exact_mod_cast hc1
    by_cases hc2 : 0 ≤ t.1
    · rw [if_pos hc2]
      have hct : (0 : ℝ) ≤ (t.1 : ℝ) := by exact_mod_cast hc2
      constructor
      · intro h
        exact Bool.noConfusion h
      · intro h
        exfalso
        have hL : (0 : ℝ) ≤ (t.1 : ℝ) * Real.sqrt (s.2 : ℝ) := mul_nonneg hct hS.le
        have hR : (s.1 : ℝ) * Real.sqrt (t.2 : ℝ) ≤ 0 := mul_nonpos_of_nonpos_of_nonneg hcs hT.le
        linarith
    · rw [if_neg hc2]
      push_neg at hc2
      have hct : (t.1 : ℝ) < 0 := by exact_mod_cast hc2
      by_cases hc3 : s.1 = 0
      · rw [if_pos hc3]
        have hcs0 : (s.1 : ℝ) = 0 := by exact_mod_cast hc3
        constructor
        · intro _
          rw [hcs0, zero_mul]
          exact mul_neg_of_neg_of_pos hct hS
        · intro _
          rfl
      · rw [if_neg hc3, decide_eq_true_eq]
        have hs1 : s.1 < 0 := lt_of_le_of_ne hc1 hc3
        have hcsn : (s.1 : ℝ) < 0 := by exact_mod_cast hs1
        have h1 : (0 : ℝ) ≤ -(s.1 : ℝ) * Real.sqrt (t.2 : ℝ) :=
          mul_nonneg (by linarith) hT.le
        have h2 : (0 : ℝ) ≤ -(t.1 : ℝ) * Real.sqrt (s.2 : ℝ) :=
          mul_nonneg (by linarith) hS.le
        rw [show ((t.1 : ℝ) * Real.sqrt (s.2 : ℝ) < (s.1 : ℝ) * Real.sqrt (t.2 : ℝ)) ↔
            (-(s.1 : ℝ) * Real.sqrt (t.2 : ℝ) < -(t.1 : ℝ) * Real.sqrt (s.2 : ℝ)) from
          ⟨fun h => by linarith, fun h => by linarith⟩]
        rw [mul_self_lt_mul_self_iff h1 h2]
        constructor
        · intro h
          have hr : (s.1 : ℝ) ^ 2 * (t.2 : ℝ) < (t.1 : ℝ) ^ 2 * (s.2 : ℝ) := by exact_mod_cast h
          nlinarith [hSq, hTq, hr]
        · intro h
          have hr : (s.1 : ℝ) ^ 2 * (t.2 : ℝ) < (t.1 : ℝ) ^ 2 * (s.2 : ℝ) := by
            nlinarith [hSq, hTq, h]
          exact_mod_cast hr

/-- A sum of squares is nonnegative. -/
theorem normSq_nonneg (a : List ℚ) : 0 ≤ normSq a := by
  refine List.sum_nonneg ?_
  intro x hx
  obtain ⟨y, -, rfl⟩ := List.mem_map.1 hx
  exact mul_self_nonneg y

/-- Every similarity score produced by `calculateFaceSimilarity` has a
nonnegative second component, so `simGt_iff_val` and `simGt_nan` cover
every score the engine ever compares. -/
theorem calculateFaceSimilarity_snd_nonneg (a b : List ℚ) :
    0 ≤ (calculateFaceSimilarity a b).2 := by
  unfold calculateFaceSimilarity
  split
  · norm_num
  · exact mul_nonneg (normSq_nonneg a) (normSq_nonneg b)
